import Mathlib

/-!
Verification of the foundation-sites MCP server core against its design
specification.  The development shallowly embeds the structural parser
(`src/utils/parser.ts`), the pattern analyzer (`src/engines/PluginAnalyzer.ts`),
the refactoring analyzer (`src/engines/RefactoringAnalyzer.ts`) and the
codebase indexer (`src/engines/CodebaseIndexer.ts`).

External collaborators are modelled as explicit parameters:

* the Babel script grammar and the postcss-scss stylesheet grammar are
  oracles `String → Except String Ast` supplied in an `Env` record (the
  repository treats both as black-box libraries; only the traversal over
  their ASTs is repository code and is embedded here);
* the filesystem (glob results, file contents, `path.relative`,
  `fs.access`) is a record of pure functions, matching the narrow
  file-source interface of the design document;
* the cache is an association list with `get`/`set`/`delete` following the
  key/value contract of the cache interface (TTL/LRU eviction belongs to
  the external collaborator and is outside the contract relied upon here).

All text-level scans performed by repository code itself (the JavaScript
`includes`/`match`/`matchAll`/`replace`/`split` calls) are embedded as
executable character-list functions mirroring the exact regular expressions
of the source.
-/

/-! ## JavaScript string primitives -/

/-- Character class of the JavaScript `\s` escape (the whitespace characters
relevant to the embedded regular expressions). -/
def jsIsSpace (c : Char) : Bool :=
  c = ' ' || c = '\t' || c = '\n' || c = '\r' || c = '\x0b' || c = '\x0c' ||
  c = ' ' || c = '﻿'

/-- Character class of the JavaScript `\w` escape. -/
def isWordChar (c : Char) : Bool :=
  ('A' ≤ c && c ≤ 'Z') || ('a' ≤ c && c ≤ 'z') || ('0' ≤ c && c ≤ '9') || c = '_'

/-- Character class `[a-zA-Z0-9_-]` used by the SCSS-side regular expressions. -/
def isClassChar (c : Char) : Bool :=
  isWordChar c || c = '-'

/-- Character class `[a-z-]` of the `[data-...]` selector regular expression. -/
def isLowerDashChar (c : Char) : Bool :=
  ('a' ≤ c && c ≤ 'z') || c = '-'

/-- The two JavaScript string-quote characters `['"]`. -/
def isQuote (c : Char) : Bool :=
  c = '\x27' || c = '"'

/-- `String.prototype.split` with a single-character separator
(`split('\n')`, `split('(')`, `split(',')`, `split('-')`). -/
def splitChar (sep : Char) : List Char → List (List Char)
  | [] => [[]]
  | c :: cs =>
    let r := splitChar sep cs
    if c = sep then [] :: r
    else
      match r with
      | h :: t => (c :: h) :: t
      | [] => [[c]]

/-- `String.prototype.trim` on a character list. -/
def jsTrimL (l : List Char) : List Char :=
  ((l.dropWhile jsIsSpace).reverse.dropWhile jsIsSpace).reverse

/-- `String.prototype.trim`. -/
def jsTrim (s : String) : String :=
  String.mk (jsTrimL s.toList)

/-- `String.prototype.toLowerCase` (ASCII range, which is all the embedded
keyword tables use). -/
def jsToLower (s : String) : String :=
  String.mk (s.toList.map Char.toLower)

/-- Contiguous-sublist test on character lists. -/
def listHasInfix (pat : List Char) : List Char → Bool
  | [] => pat.isPrefixOf ([] : List Char)
  | c :: cs => pat.isPrefixOf (c :: cs) || listHasInfix pat cs

/-- `String.prototype.includes`: contiguous-substring test. -/
def jsIncludes (s sub : String) : Bool :=
  listHasInfix sub.toList s.toList

/-- Split a character list at the first occurrence of `pat`, returning the
part before the occurrence and the part after it. -/
def splitFirstAt (pat : List Char) : List Char → Option (List Char × List Char)
  | [] => if pat.isPrefixOf ([] : List Char) then some ([], []) else none
  | c :: cs =>
    if pat.isPrefixOf (c :: cs) then some ([], (c :: cs).drop pat.length)
    else
      match splitFirstAt pat cs with
      | some (b, a) => some (c :: b, a)
      | none => none

/-- `String.prototype.replace` with a plain-string pattern: replaces only the
first occurrence. -/
def jsReplaceFirst (s pat repl : String) : String :=
  match splitFirstAt pat.toList s.toList with
  | some (b, a) => String.mk (b ++ repl.toList ++ a)
  | none => s

/-- JavaScript object lookup over an assignment history: the last assignment
to a key wins, a never-assigned key reads as `undefined`. -/
def jsObjGet (docs : List (String × String)) (k : String) : Option String :=
  docs.foldl (fun acc p => if p.1 = k then some p.2 else acc) none

/-- The `x?.f || dflt` idiom applied to an optional string: `undefined` and
the empty string both fall back to the default. -/
def jsOptOr (v : Option String) (dflt : String) : String :=
  match v with
  | some s => if s = "" then dflt else s
  | none => dflt

/-- `String.prototype.startsWith`. -/
def jsStartsWith (s pre : String) : Bool :=
  pre.toList.isPrefixOf s.toList

/-- `String.prototype.slice(n)` (drop the first `n` characters). -/
def jsDropChars (s : String) (n : Nat) : String :=
  String.mk (s.toList.drop n)

theorem splitFirstAt_length (pat : List Char) (hp : pat ≠ []) :
    ∀ l b a, splitFirstAt pat l = some (b, a) → a.length + 1 ≤ l.length := by
  intro l
  induction l with
  | nil =>
    intro b a h
    simp only [splitFirstAt] at h
    have : ¬ pat.isPrefixOf ([] : List Char) = true := by
      cases pat with
      | nil => exact absurd rfl hp
      | cons x xs => simp [List.isPrefixOf]
    simp [this] at h
  | cons c cs ih =>
    intro b a h
    simp only [splitFirstAt] at h
    by_cases hpre : pat.isPrefixOf (c :: cs) = true
    · simp [hpre] at h
      obtain ⟨hb, ha⟩ := h
      subst ha
      have hlen : 1 ≤ pat.length := by
        cases pat with
        | nil => exact absurd rfl hp
        | cons x xs => simp
      simp [List.length_drop]
      omega
    · simp [hpre] at h
      cases hsp : splitFirstAt pat cs with
      | none => rw [hsp] at h; simp at h
      | some p =>
        rw [hsp] at h
        obtain ⟨b', a'⟩ := p
        simp at h
        obtain ⟨hb, ha⟩ := h
        subst ha
        have := ih b' a' hsp
        simp
        omega

/-! ## Embedded regular-expression scans

Each scanner mirrors one concrete regular expression of the source.  Global
(`/g`) scans resume after the end of a successful match, exactly as the
JavaScript engine does; a fuel argument bounded by the input length makes
the jump-ahead recursion structural (the fuel never runs out because every
successful match consumes at least one character). -/

/-- One match attempt of `/\.trigger\(['"]([^'"]+)['"]\)/` at the head of the
list: returns the captured event name and the total number of characters the
match consumed. -/
def matchTriggerHere (l : List Char) : Option (String × Nat) :=
  if (".trigger(".toList).isPrefixOf l then
    match l.drop 9 with
    | q1 :: rest =>
      if isQuote q1 then
        let run := rest.takeWhile (fun c => !(isQuote c))
        if run.isEmpty then none
        else
          match rest.drop run.length with
          | q2 :: c2 :: _ =>
            if isQuote q2 && c2 = ')' then some (String.mk run, 12 + run.length)
            else none
          | _ => none
      else none
    | [] => none
  else none

def scanTriggerAux : Nat → List Char → List String
  | 0, _ => []
  | _ + 1, [] => []
  | fuel + 1, c :: cs =>
    match matchTriggerHere (c :: cs) with
    | some (ev, n) => ev :: scanTriggerAux fuel ((c :: cs).drop n)
    | none => scanTriggerAux fuel cs

/-- The global scan `[...code.matchAll(/\.trigger\(['"]([^'"]+)['"]\)/g)].map(m => m[1])`
performed by the pattern analyzer's event-naming check. -/
def scanTriggerEvents (s : String) : List String :=
  scanTriggerAux s.toList.length s.toList

def scanClassAux : Nat → List Char → List String
  | 0, _ => []
  | _ + 1, [] => []
  | fuel + 1, c :: cs =>
    if c = '.' then
      let run := cs.takeWhile isClassChar
      if run.isEmpty then scanClassAux fuel cs
      else String.mk run :: scanClassAux fuel (cs.drop run.length)
    else scanClassAux fuel cs

/-- The global scan `selector.match(/\.([a-zA-Z0-9_-]+)/g)` of the stylesheet
parser, already stripped of the leading dot of each match. -/
def scanClassTokens (s : String) : List String :=
  scanClassAux s.toList.length s.toList

/-- First match of `/\[data-([a-z-]+)\]/` (capture group only). -/
def scanDataSelector : List Char → Option String
  | [] => none
  | c :: cs =>
    if ("[data-".toList).isPrefixOf (c :: cs) then
      let rest := (c :: cs).drop 6
      let run := rest.takeWhile isLowerDashChar
      if run.isEmpty then scanDataSelector cs
      else
        match rest.drop run.length with
        | ']' :: _ => some (String.mk run)
        | _ => scanDataSelector cs
    else scanDataSelector cs

def jsdocBlocksAux : Nat → List Char → List (List Char)
  | 0, _ => []
  | fuel + 1, l =>
    match splitFirstAt ("/**".toList) l with
    | none => []
    | some (_, rest1) =>
      match splitFirstAt ("*/".toList) rest1 with
      | none => []
      | some (block, rest2) => block :: jsdocBlocksAux fuel rest2

/-- All matches of `/\/\*\*([\s\S]*?)\*\//g`: the lazily captured bodies of
the `/** ... */` blocks, in document order. -/
def jsdocBlocks (s : String) : List (List Char) :=
  jsdocBlocksAux s.toList.length s.toList

/-- Match attempt of `@(?:class|function|method)\s+(\w+)` at the head of the
list (capture group only). -/
def tagHere (l : List Char) : Option String :=
  let tag :=
    if ("@class".toList).isPrefixOf l then some 6
    else if ("@function".toList).isPrefixOf l then some 9
    else if ("@method".toList).isPrefixOf l then some 7
    else none
  match tag with
  | none => none
  | some n =>
    let rest := l.drop n
    let ws := rest.takeWhile jsIsSpace
    if ws.isEmpty then none
    else
      let word := (rest.drop ws.length).takeWhile isWordChar
      if word.isEmpty then none else some (String.mk word)

/-- First match of `/@(?:class|function|method)\s+(\w+)/` in a comment body. -/
def scanTagName : List Char → Option String
  | [] => none
  | c :: cs =>
    match tagHere (c :: cs) with
    | some n => some n
    | none => scanTagName cs

/-- Tail of a `/@description\s+(.+)/` match attempt: the backtracking-correct
behaviour of `\s+(.+)` applied to the characters following `@description`. -/
def descTail (rest : List Char) : Option String :=
  let ws := rest.takeWhile jsIsSpace
  if ws.isEmpty then none
  else
    match rest.drop ws.length with
    | _ :: _ => some (String.mk ((rest.drop ws.length).takeWhile (fun c => c ≠ '\n')))
    | [] =>
      match ((List.range ws.length).filter
          (fun k => 1 ≤ k && ws.getD k '\n' ≠ '\n')).max? with
      | some k => some (String.mk ((ws.drop k).takeWhile (fun c => c ≠ '\n')))
      | none => none

/-- First match of `/@description\s+(.+)/` in a comment body (capture group). -/
def scanDesc : List Char → Option String
  | [] => none
  | c :: cs =>
    if ("@description".toList).isPrefixOf (c :: cs) then
      match descTail ((c :: cs).drop 12) with
      | some s => some s
      | none => scanDesc cs
    else scanDesc cs

/-- `firstLine.replace(/^\s*\*\s*/, '')`: strip a leading `*` of a JSDoc
line together with the whitespace around it. -/
def stripStarIntro (l : List Char) : List Char :=
  let ws := l.takeWhile jsIsSpace
  match l.drop ws.length with
  | '*' :: rest => rest.dropWhile jsIsSpace
  | _ => l

/-- First match of `/@mixin\s+([a-zA-Z0-9_-]+)/` (capture group). -/
def scanMixinName : List Char → Option String
  | [] => none
  | c :: cs =>
    if ("@mixin".toList).isPrefixOf (c :: cs) then
      let rest := (c :: cs).drop 6
      let ws := rest.takeWhile jsIsSpace
      if ws.isEmpty then scanMixinName cs
      else
        let word := (rest.drop ws.length).takeWhile isClassChar
        if word.isEmpty then scanMixinName cs else some (String.mk word)
    else scanMixinName cs

/-- First match of `/\$([a-zA-Z0-9_-]+)/` (capture group, without the `$`). -/
def scanVarName : List Char → Option String
  | [] => none
  | c :: cs =>
    if c = '$' then
      let word := cs.takeWhile isClassChar
      if word.isEmpty then scanVarName cs else some (String.mk word)
    else scanVarName cs

/-! ## Script AST and the `parsePlugin` traversal

The Babel AST is embedded at the granularity the traversal of
`src/utils/parser.ts` inspects: import declarations, named class exports,
bare class declarations, class members with identifier keys, and call
expressions whose callee is a member expression with an identifier
property.  `JsCall.calleeProp` is that property name (`none` when the
callee has another shape) and `JsCall.firstArgLit` is the first argument
when it is a string literal. -/

structure JsCall where
  calleeProp : Option String
  firstArgLit : Option String
deriving DecidableEq

inductive ClassMember where
  | method (nm : String) (calls : List JsCall)
  | property (nm : String) (calls : List JsCall)
  | otherMember (calls : List JsCall)
deriving DecidableEq

structure ClassDecl where
  id : Option String
  superClass : Option String
  body : List ClassMember
deriving DecidableEq

inductive JsStmt where
  | importDecl (source : String)
  | exportNamedClass (c : ClassDecl)
  | classDecl (c : ClassDecl)
  | otherStmt (calls : List JsCall)
deriving DecidableEq

/-- `ParsedPlugin` of `src/types.ts`. -/
structure ParsedPlugin where
  className : String
  methods : List String
  properties : List String
  events : List String
  extendsClass : Option String
  imports : List String
  exports : List String
deriving DecidableEq

def emptyParsedPlugin : ParsedPlugin :=
  ⟨"", [], [], [], none, [], []⟩

/-- CallExpression visitor: record the first argument of a
`<expr>.trigger("…")` or `<expr>.fire("…")` call when it is a string
literal. -/
def visitCall (st : ParsedPlugin) (call : JsCall) : ParsedPlugin :=
  if (call.calleeProp = some "trigger" || call.calleeProp = some "fire") then
    match call.firstArgLit with
    | some lit => { st with events := st.events ++ [lit] }
    | none => st
  else st

def memberCalls : ClassMember → List JsCall
  | .method _ calls => calls
  | .property _ calls => calls
  | .otherMember calls => calls

def visitCallsOfBody (st : ParsedPlugin) (body : List ClassMember) : ParsedPlugin :=
  (body.foldl (fun s m => (memberCalls m).foldl visitCall s) st)

/-- Member pass of the `ExportNamedDeclaration` visitor: pushes method and
property names unconditionally (no de-duplication in this pass). -/
def exportMemberPass (st : ParsedPlugin) (body : List ClassMember) : ParsedPlugin :=
  body.foldl
    (fun s m =>
      match m with
      | .method nm _ => { s with methods := s.methods ++ [nm] }
      | .property nm _ => { s with properties := s.properties ++ [nm] }
      | .otherMember _ => s)
    st

/-- Member pass of the `ClassDeclaration` visitor: pushes a name only when
it is not already present. -/
def classMemberPass (st : ParsedPlugin) (body : List ClassMember) : ParsedPlugin :=
  body.foldl
    (fun s m =>
      match m with
      | .method nm _ =>
        if s.methods.contains nm then s else { s with methods := s.methods ++ [nm] }
      | .property nm _ =>
        if s.properties.contains nm then s else { s with properties := s.properties ++ [nm] }
      | .otherMember _ => s)
    st

/-- The `ExportNamedDeclaration` visitor applied to an exported class:
the class name and the superclass identifier overwrite unconditionally
(the name only when the declaration has an id, the superclass only when it
is an identifier). -/
def visitExportedClass (st : ParsedPlugin) (c : ClassDecl) : ParsedPlugin :=
  let st1 :=
    match c.id with
    | some n => { st with className := n, exports := st.exports ++ [n] }
    | none => st
  let st2 :=
    match c.superClass with
    | some s => { st1 with extendsClass := some s }
    | none => st1
  exportMemberPass st2 c.body

/-- The `ClassDeclaration` visitor: fills `className`/`extendsClass` only
when still unset, and de-duplicates member names. -/
def visitClassDecl (st : ParsedPlugin) (c : ClassDecl) : ParsedPlugin :=
  let st1 :=
    match c.id with
    | some n => if st.className = "" then { st with className := n } else st
    | none => st
  let st2 :=
    match c.superClass with
    | some s => if st1.extendsClass = none then { st1 with extendsClass := some s } else st1
    | none => st1
  classMemberPass st2 c.body

/-- Babel visits a class nested in an `ExportNamedDeclaration` twice: the
export visitor fires on the wrapper, then the plain class visitor fires on
the child class node, then the call expressions of the member bodies are
visited. -/
def visitStmt (st : ParsedPlugin) : JsStmt → ParsedPlugin
  | .importDecl source =>
    if source ≠ "" then { st with imports := st.imports ++ [source] } else st
  | .exportNamedClass c =>
    visitCallsOfBody (visitClassDecl (visitExportedClass st c) c) c.body
  | .classDecl c =>
    visitCallsOfBody (visitClassDecl st c) c.body
  | .otherStmt calls => calls.foldl visitCall st

/-- `parsePlugin` of `src/utils/parser.ts`, applied to an already parsed
Babel AST (the traversal half of the function; the grammar half is the
external `@babel/parser`). -/
def parsePluginAst (prog : List JsStmt) : ParsedPlugin :=
  prog.foldl visitStmt emptyParsedPlugin

/-- A `ParseError` value: `message` is the wrapped message, `context` the
`{ code }` detail attached by the parser. -/
structure ParseErr where
  message : String
  context : String
deriving DecidableEq

/-- `parsePlugin` on raw text: Babel either yields an AST or a syntax error
message, which the repository wraps into a `ParseError`. -/
def parsePluginText (babel : String → Except String (List JsStmt))
    (code : String) : Except ParseErr ParsedPlugin :=
  match babel code with
  | .ok prog => .ok (parsePluginAst prog)
  | .error m => .error ⟨"Failed to parse JavaScript plugin: " ++ m, code⟩

/-! ## `extractJSDoc` and `extractSassDoc` -/

/-- `extractJSDoc` of `src/utils/parser.ts`: for every `/** ... */` block
holding an `@class`/`@function`/`@method` tag, associate the tagged name
with the `@description` capture, or else with the first line of the block
stripped of its leading `*`. -/
def extractJSDoc (code : String) : List (String × String) :=
  (jsdocBlocks code).foldl
    (fun docs block =>
      match scanTagName block with
      | some nm =>
        let description :=
          match scanDesc block with
          | some d => d
          | none => String.mk (jsTrimL (stripStarIntro (block.takeWhile (fun c => c ≠ '\n'))))
        docs ++ [(nm, description)]
      | none => docs)
    []

/-- One step of the `extractSassDoc` line loop; the state is the pending
doc buffer paired with the assignment history. -/
def sassDocLine (st : String × List (String × String)) (line : List Char) :
    String × List (String × String) :=
  let currentDoc := st.1
  let docs := st.2
  if ("///".toList).isPrefixOf (jsTrimL line) then
    let cleaned :=
      match splitFirstAt ("///".toList) line with
      | some (b, a) => b ++ a.dropWhile jsIsSpace
      | none => line
    (currentDoc ++ String.mk (jsTrimL cleaned) ++ " ", docs)
  else if currentDoc ≠ "" && listHasInfix ("@mixin".toList) line then
    match scanMixinName line with
    | some nm => ("", docs ++ [(nm, jsTrim currentDoc)])
    | none => (currentDoc, docs)
  else if currentDoc ≠ "" && line.contains '$' then
    match scanVarName line with
    | some nm => ("", docs ++ [(nm, jsTrim currentDoc)])
    | none => (currentDoc, docs)
  else if currentDoc ≠ "" && jsTrimL line = [] then
    (currentDoc, docs)
  else if currentDoc ≠ "" then
    ("", docs)
  else (currentDoc, docs)

/-- `extractSassDoc` of `src/utils/parser.ts`. -/
def extractSassDoc (code : String) : List (String × String) :=
  ((splitChar '\n' code.toList).foldl sassDocLine ("", [])).2

/-! ## Stylesheet AST and the `parseComponent` traversal

The postcss AST is a tree; `walkComments`, `walkDecls`, `walkAtRules` and
`walkRules` each perform one complete pre-order walk over it.  Comment
nodes carry the comment text as extracted by the external postcss-scss
tokenizer. -/

inductive ScssNode where
  | comment (text : String)
  | decl (prop value : String)
  | atrule (nm params : String) (children : List ScssNode)
  | rule (selectors : List String) (children : List ScssNode)

/-- `root.walkComments`: comment texts in pre-order. -/
def walkComments : List ScssNode → List String
  | [] => []
  | .comment t :: rest => t :: walkComments rest
  | .decl _ _ :: rest => walkComments rest
  | .atrule _ _ cs :: rest => walkComments cs ++ walkComments rest
  | .rule _ cs :: rest => walkComments cs ++ walkComments rest

/-- `root.walkDecls`: `(prop, value)` pairs in pre-order. -/
def walkDecls : List ScssNode → List (String × String)
  | [] => []
  | .comment _ :: rest => walkDecls rest
  | .decl p v :: rest => (p, v) :: walkDecls rest
  | .atrule _ _ cs :: rest => walkDecls cs ++ walkDecls rest
  | .rule _ cs :: rest => walkDecls cs ++ walkDecls rest

/-- `root.walkAtRules`: `(name, params)` pairs in pre-order. -/
def walkAtRules : List ScssNode → List (String × String)
  | [] => []
  | .comment _ :: rest => walkAtRules rest
  | .decl _ _ :: rest => walkAtRules rest
  | .atrule n p cs :: rest => (n, p) :: (walkAtRules cs ++ walkAtRules rest)
  | .rule _ cs :: rest => walkAtRules cs ++ walkAtRules rest

/-- `root.walkRules`: selector lists in pre-order. -/
def walkRules : List ScssNode → List (List String)
  | [] => []
  | .comment _ :: rest => walkRules rest
  | .decl _ _ :: rest => walkRules rest
  | .atrule _ _ cs :: rest => walkRules cs ++ walkRules rest
  | .rule ss cs :: rest => ss :: (walkRules cs ++ walkRules rest)

structure SassVariable where
  nm : String
  defaultValue : String
  description : Option String
deriving DecidableEq

structure SassMixin where
  nm : String
  parameters : List String
  description : Option String
deriving DecidableEq

/-- `ParsedComponent` of `src/types.ts` (the `variables` field is named
`vars` here because `variables` is a reserved word in Lean). -/
structure ParsedComponent where
  vars : List SassVariable
  mixins : List SassMixin
  classes : List String
deriving DecidableEq

/-- The variable pass of `parseComponent`: walk all declarations, record the
`$`-prefixed ones, attach the pending comment (`undefined` when empty) and
clear it once a variable is recorded.  The state is the pending comment
paired with the accumulated variables. -/
def componentVarStep (st : String × List SassVariable) (d : String × String) :
    String × List SassVariable :=
  if jsStartsWith d.1 "$" then
    ("", st.2 ++ [⟨d.1, d.2, if st.1 = "" then none else some st.1⟩])
  else st

/-- The mixin pass of `parseComponent`: on each `@mixin` at-rule, split the
raw params on `(`, the mixin name is the trimmed first part, the parameter
list is the second part (if truthy) with the first `)` removed, split on
commas, each trimmed. -/
def componentMixinStep (st : String × List SassMixin) (r : String × String) :
    String × List SassMixin :=
  if r.1 = "mixin" then
    let parts := splitChar '(' r.2.toList
    let nm := String.mk (jsTrimL (parts.headD []))
    let parameters :=
      match parts.get? 1 with
      | some p =>
        if p.isEmpty then []
        else (splitChar ',' (replName p)).map (fun q => String.mk (jsTrimL q))
      | none => []
    ("", st.2 ++ [⟨nm, parameters, if st.1 = "" then none else some st.1⟩])
  else st
where
  /-- `params[1].replace(')', '')`: drop the first `)`. -/
  replName (p : List Char) : List Char :=
    match splitFirstAt (")".toList) p with
    | some (b, a) => b ++ a
    | none => p

/-- The rule pass of `parseComponent`: collect every `.className` token of
every selector, de-duplicated by first occurrence. -/
def componentClassStep (acc : List String) (selectors : List String) : List String :=
  selectors.foldl
    (fun a sel =>
      (scanClassTokens sel).foldl
        (fun a2 cls => if a2.contains cls then a2 else a2 ++ [cls])
        a)
    acc

/-- `parseComponent` of `src/utils/parser.ts` applied to an already parsed
postcss AST.  The crucial ordering of the source is preserved:
`walkComments` runs to completion first (leaving the pending comment equal
to the trimmed text of the *last* comment of the document), then
`walkDecls`, then `walkAtRules`, then `walkRules`. -/
def parseComponentAst (nodes : List ScssNode) : ParsedComponent :=
  let afterComments := (walkComments nodes).foldl (fun _ t => jsTrim t) ""
  let varsOut := (walkDecls nodes).foldl componentVarStep (afterComments, [])
  let mixinsOut := (walkAtRules nodes).foldl componentMixinStep (varsOut.1, [])
  let classes := (walkRules nodes).foldl componentClassStep []
  ⟨varsOut.2, mixinsOut.2, classes⟩

/-- `parseComponent` on raw text: the postcss-scss grammar either yields an
AST or a syntax error message, which the repository wraps into a
`ParseError`. -/
def parseComponentText (scss : String → Except String (List ScssNode))
    (code : String) : Except ParseErr ParsedComponent :=
  match scss code with
  | .ok nodes => .ok (parseComponentAst nodes)
  | .error m => .error ⟨"Failed to parse SCSS component: " ++ m, code⟩

/-! ## Pattern analyzer (`src/engines/PluginAnalyzer.ts`) -/

/-- `ValidationIssue` of `src/types.ts`. -/
structure ValidationIssue where
  severity : String
  message : String
  line : Option Nat := none
  suggestion : Option String := none
deriving DecidableEq

structure Conformance where
  architecture : Nat
  conventions : Nat
  accessibility : Nat
deriving DecidableEq

/-- `AnalyzePatternResult` of `src/types.ts` (the `matches` field is named
`matchesKind` here because `matches` is a reserved word in Lean). -/
structure AnalyzePatternResult where
  matchesKind : String
  issues : List ValidationIssue
  conformance : Conformance
  suggestions : List String
deriving DecidableEq

/-- The strict PascalCase test `/^[A-Z][a-zA-Z0-9]*$/`. -/
def isPascalCase (s : String) : Bool :=
  match s.toList with
  | [] => false
  | c :: rest =>
    ('A' ≤ c && c ≤ 'Z') &&
    rest.all (fun d => ('A' ≤ d && d ≤ 'Z') || ('a' ≤ d && d ≤ 'z') || ('0' ≤ d && d ≤ '9'))

/-- The fixed report returned by `analyzePluginPattern` when the parse
throws. -/
def parseFailureReport : AnalyzePatternResult :=
  { matchesKind := "no-match"
    issues := [{ severity := "error", message := "Failed to parse code",
                 suggestion := some "Ensure code is valid JavaScript" }]
    conformance := ⟨0, 0, 0⟩
    suggestions := ["Fix syntax errors before analyzing"] }

/-- `analyzePluginPattern` of `src/engines/PluginAnalyzer.ts`.  The overall
classification compares the axis average with 80 and 50; the embedding
clears the division by 3 (`avg ≥ t ↔ sum ≥ 3t`). -/
def analyzePluginPattern (babel : String → Except String (List JsStmt))
    (code : String) : AnalyzePatternResult :=
  match parsePluginText babel code with
  | .error _ => parseFailureReport
  | .ok parsed =>
    let extendsOk := parsed.extendsClass = some "Plugin"
    let missingMethods := (["_init", "_destroy"].filter (fun m => ¬ parsed.methods.contains m))
    let hasConstructor := parsed.methods.contains "constructor"
    let namingOk := parsed.className ≠ "" && isPascalCase parsed.className
    let jsdocOk := jsIncludes code "/**" && jsIncludes code "@class"
    let events := scanTriggerEvents code
    let hasNamespacedEvents := events.any (fun e => jsIncludes e ".zf.")
    let eventsOk := hasNamespacedEvents || events.length = 0
    let ariaOk := jsIncludes code "aria-" || jsIncludes code "role="
    let keyboardOk := jsIncludes code "Keyboard" || jsIncludes code "KEYS"
    let focusOk := jsIncludes code "focus()" || jsIncludes code "$element.focus"
    let architectureScore :=
      (if extendsOk then 30 else 0) +
      (if missingMethods.isEmpty then 40 else 0) +
      (if hasConstructor then 10 else 0)
    let conventionsScore :=
      (if namingOk then 30 else 0) +
      (if jsdocOk then 20 else 0) +
      (if eventsOk then 20 else 0)
    let accessibilityScore :=
      (if ariaOk then 40 else 0) +
      (if keyboardOk then 30 else 0) +
      (if focusOk then 30 else 0)
    let issues : List ValidationIssue :=
      (if extendsOk then [] else
        [{ severity := "error", message := "Plugin must extend the Plugin base class",
           suggestion := some "export class YourPlugin extends Plugin \x7b ... \x7d" }]) ++
      (missingMethods.map (fun m =>
        { severity := "error", message := "Missing required method: " ++ m,
          suggestion := some ("Add " ++ m ++ "() method to your plugin class") })) ++
      (if hasConstructor then [] else
        [{ severity := "warning", message := "Plugin should have a constructor",
           suggestion := some "constructor(element, options) \x7b super(element, options); \x7d" }]) ++
      (if namingOk then [] else
        [{ severity := "warning", message := "Plugin class name should be PascalCase",
           suggestion := some "Use PascalCase for class names (e.g., MyPlugin)" }]) ++
      (if jsdocOk then [] else
        [{ severity := "info", message := "Add JSDoc comments to your plugin",
           suggestion := some "Add /** @class */ comment above your plugin class" }]) ++
      (if eventsOk then [] else
        [{ severity := "warning", message := "Events should use .zf.\x7bplugin\x7d namespace",
           suggestion := some "Use event names like \x27open.zf.accordion\x27" }]) ++
      (if ariaOk then [] else
        [{ severity := "warning",
           message := "Plugin should implement ARIA attributes for accessibility",
           suggestion := some "Add ARIA attributes for screen reader support" }]) ++
      (if keyboardOk then [] else
        [{ severity := "info", message := "Consider adding keyboard navigation support",
           suggestion := some "Use Foundation.Keyboard utility for keyboard events" }])
    let architecture := min architectureScore 100
    let conventions := min (conventionsScore + 30) 100
    let accessibility := min accessibilityScore 100
    let total := architecture + conventions + accessibility
    let matchesKind :=
      if 240 ≤ total then "matches"
      else if 150 ≤ total then "partial-match"
      else "no-match"
    let suggestions :=
      (if architecture < 80 then ["Review Foundation plugin architecture guide"] else []) ++
      (if conventions < 80 then ["Follow Foundation naming conventions"] else []) ++
      (if accessibility < 80 then
        ["Improve accessibility with ARIA and keyboard support"] else [])
    { matchesKind := matchesKind, issues := issues,
      conformance := ⟨architecture, conventions, accessibility⟩,
      suggestions := suggestions }

/-- The fixed stub returned by `analyzePattern` for non-`plugin` kinds. -/
def unimplementedPatternReport : AnalyzePatternResult :=
  { matchesKind := "no-match", issues := [], conformance := ⟨0, 0, 0⟩,
    suggestions := ["Analysis for this pattern type is not yet implemented"] }

/-- The kind dispatch at the end of `analyzePattern`, applied to the code
text that survived the file-path indirection. -/
def dispatchPattern (babel : String → Except String (List JsStmt))
    (patternType code : String) : AnalyzePatternResult :=
  if patternType = "plugin" then analyzePluginPattern babel code
  else unimplementedPatternReport

/-- The file-source half of the environment: `fileExists`, `readFile` (which
may fail with an I/O error) and the glob results the indexer walks over. -/
structure FileSource where
  pathExists : String → Bool
  read : String → Except String String
  pluginFiles : List String
  utilityFiles : List String
  componentFiles : List String
  relative : String → String

/-- The external collaborators of the core: the two grammars and the file
source. -/
structure Env where
  babel : String → Except String (List JsStmt)
  scss : String → Except String (List ScssNode)
  fs : FileSource

/-- `PluginAnalyzer.analyzePattern`: when the `code` parameter names an
existing file, its contents are read (an I/O failure there propagates) and
analyzed in place of the parameter itself. -/
def analyzePattern (env : Env) (code patternType : String) :
    Except String AnalyzePatternResult :=
  if env.fs.pathExists code then
    match env.fs.read code with
    | .error e => .error e
    | .ok contents => .ok (dispatchPattern env.babel patternType contents)
  else .ok (dispatchPattern env.babel patternType code)

/-! ## Codebase indexer (`src/engines/CodebaseIndexer.ts`) -/

/-- `FoundationPlugin` of `src/types.ts`. -/
structure FoundationPlugin where
  name : String
  slug : String
  type : String
  path : String
  description : String
  className : String
  selector : String
  supportsNesting : Bool
  deprecatedInVersion : Option String
  docs : String
deriving DecidableEq

/-- `FoundationComponent` of `src/types.ts`. -/
structure FoundationComponent where
  name : String
  slug : String
  type : String
  scssPath : String
  description : String
  mixins : List String
  cssClasses : List String
  docs : String
deriving DecidableEq

/-- `FoundationUtility` of `src/types.ts`. -/
structure FoundationUtility where
  name : String
  slug : String
  path : String
  description : String
  exports : List String
deriving DecidableEq

/-- `FoundationGrid` of `src/types.ts`. -/
structure FoundationGrid where
  name : String
  slug : String
  type : String
  scssPath : String
  description : String
deriving DecidableEq

/-- `FoundationIndex` of `src/types.ts`. -/
structure FoundationIndex where
  plugins : List FoundationPlugin
  components : List FoundationComponent
  utilities : List FoundationUtility
  grids : List FoundationGrid
deriving DecidableEq

/-- `CacheKeys.pluginIndex()`. -/
def pluginIndexKey : String := "foundation:plugins:index"

/-- `CacheKeys.componentIndex()`. -/
def componentIndexKey : String := "foundation:components:index"

/-- The cache collaborator, restricted to the index values the indexer
stores under its composite keys. -/
abbrev CacheMap := List (String × FoundationIndex)

def cacheGet (cache : CacheMap) (k : String) : Option FoundationIndex :=
  (cache.find? (fun p => p.1 = k)).map (fun p => p.2)

def cacheSet (cache : CacheMap) (k : String) (v : FoundationIndex) : CacheMap :=
  (k, v) :: cache.filter (fun p => p.1 ≠ k)

def cacheDelete (cache : CacheMap) (k : String) : CacheMap :=
  cache.filter (fun p => p.1 ≠ k)

/-- `path.basename(p, ext)` (POSIX behaviour): trailing slashes ignored,
last path segment, `ext` stripped when the segment ends with it and is not
equal to it. -/
def pathBasename (p ext : String) : String :=
  let noTrail := (p.toList.reverse.dropWhile (fun c => c = '/')).reverse
  let base := (noTrail.reverse.takeWhile (fun c => c ≠ '/')).reverse
  if String.mk base ≠ ext && (ext.toList.reverse.isPrefixOf base.reverse) then
    String.mk (base.take (base.length - ext.length))
  else String.mk base

/-- `slug.split('-').map(w => w.charAt(0).toUpperCase() + w.slice(1)).join(' ')`. -/
def componentDisplayName (slug : String) : String :=
  String.intercalate " "
    ((splitChar '-' slug.toList).map
      (fun w =>
        match w with
        | [] => ""
        | c :: cs => String.mk (c.toUpper :: cs)))

/-- `slug.split(/(?=[A-Z])/)`: split immediately before every uppercase
letter except at the start of the string. -/
def splitBeforeUpperAux (acc : List Char) : List Char → List (List Char)
  | [] => [acc.reverse]
  | d :: ds =>
    if 'A' ≤ d && d ≤ 'Z' then acc.reverse :: splitBeforeUpperAux [d] ds
    else splitBeforeUpperAux (d :: acc) ds

def splitBeforeUpper (l : List Char) : List (List Char) :=
  match l with
  | [] => [[]]
  | c :: cs => splitBeforeUpperAux [c] cs

/-- `slug.split(/(?=[A-Z])/).join(' ').replace(/^\w/, c => c.toUpperCase())`. -/
def utilityDisplayName (slug : String) : String :=
  let joined := String.intercalate " " ((splitBeforeUpper slug.toList).map String.mk)
  match joined.toList with
  | c :: cs => if isWordChar c then String.mk (c.toUpper :: cs) else joined
  | [] => joined

/-- The skip filter of `indexPlugins`: utility files, core files and the
aggregate entry file are excluded by substring tests on the path. -/
def pluginFileSkipped (file : String) : Bool :=
  jsIncludes file "foundation.util." || jsIncludes file "foundation.core." ||
  jsIncludes file "foundation.js"

/-- `parsePluginFile`: read the file, parse it, skip it (`none`) when no
class name was resolved, otherwise assemble the catalog entry.  A thrown
`ParseError` or I/O error is the `Except.error` case. -/
def parsePluginFileE (env : Env) (file : String) :
    Except String (Option FoundationPlugin) :=
  match env.fs.read file with
  | .error e => .error e
  | .ok content =>
    match parsePluginText env.babel content with
    | .error e => .error e.message
    | .ok parsed =>
      if parsed.className = "" then .ok none
      else
        let filename := pathBasename file ".js"
        let slug := jsReplaceFirst filename "foundation." ""
        let docs := extractJSDoc content
        let selector :=
          match scanDataSelector content.toList with
          | some captured => "[data-" ++ captured ++ "]"
          | none => "[data-" ++ slug ++ "]"
        let supportsNesting := jsIncludes content "nested" || jsIncludes content "Nest"
        .ok (some
          { name := parsed.className
            slug := slug
            type := "plugin"
            path := env.fs.relative file
            description := jsOptOr (jsObjGet docs parsed.className)
              (parsed.className ++ " plugin")
            className := parsed.className
            selector := selector
            supportsNesting := supportsNesting
            deprecatedInVersion := none
            docs := "https://get.foundation/sites/docs/" ++ slug ++ ".html" })

/-- `indexPlugins` over an explicit file list: skipped files are dropped,
a failing file is logged and omitted, a parsed file without a class name is
omitted, every other file contributes its entry. -/
def indexPluginsOn (env : Env) (files : List String) : List FoundationPlugin :=
  files.foldl
    (fun acc file =>
      if pluginFileSkipped file then acc
      else
        match parsePluginFileE env file with
        | .ok (some p) => acc ++ [p]
        | .ok none => acc
        | .error _ => acc)
    []

def indexPlugins (env : Env) : List FoundationPlugin :=
  indexPluginsOn env env.fs.pluginFiles

/-- `parseComponentFile`. -/
def parseComponentFileE (env : Env) (file : String) :
    Except String (Option FoundationComponent) :=
  match env.fs.read file with
  | .error e => .error e
  | .ok content =>
    match parseComponentText env.scss content with
    | .error e => .error e.message
    | .ok parsed =>
      let filename := pathBasename file ".scss"
      let slug := if jsStartsWith filename "_" then jsDropChars filename 1 else filename
      let docs := extractSassDoc content
      let name := componentDisplayName slug
      .ok (some
        { name := name
          slug := slug
          type := "component"
          scssPath := env.fs.relative file
          description := jsOptOr (jsObjGet docs slug) (name ++ " component")
          mixins := parsed.mixins.map (fun m => m.nm)
          cssClasses := parsed.classes
          docs := "https://get.foundation/sites/docs/" ++ slug ++ ".html" })

def indexComponentsOn (env : Env) (files : List String) : List FoundationComponent :=
  files.foldl
    (fun acc file =>
      match parseComponentFileE env file with
      | .ok (some comp) => acc ++ [comp]
      | .ok none => acc
      | .error _ => acc)
    []

def indexComponents (env : Env) : List FoundationComponent :=
  indexComponentsOn env env.fs.componentFiles

/-- `parseUtilityFile` (never skips on a missing class name). -/
def parseUtilityFileE (env : Env) (file : String) :
    Except String (Option FoundationUtility) :=
  match env.fs.read file with
  | .error e => .error e
  | .ok content =>
    match parsePluginText env.babel content with
    | .error e => .error e.message
    | .ok parsed =>
      let filename := pathBasename file ".js"
      let slug := jsReplaceFirst filename "foundation.util." ""
      let docs := extractJSDoc content
      let name := utilityDisplayName slug
      .ok (some
        { name := name
          slug := slug
          path := env.fs.relative file
          description := jsOptOr (jsObjGet docs parsed.className) (name ++ " utility")
          exports := parsed.exports })

def indexUtilitiesOn (env : Env) (files : List String) : List FoundationUtility :=
  files.foldl
    (fun acc file =>
      match parseUtilityFileE env file with
      | .ok (some u) => acc ++ [u]
      | .ok none => acc
      | .error _ => acc)
    []

def indexUtilities (env : Env) : List FoundationUtility :=
  indexUtilitiesOn env env.fs.utilityFiles

/-- The fixed built-in grid catalog of `indexGrids`. -/
def indexGrids : List FoundationGrid :=
  [{ name := "XY Grid", slug := "xy-grid", type := "grid-system",
     scssPath := "scss/xy-grid/",
     description := "Modern CSS Grid and Flexbox-based layout system" },
   { name := "Float Grid", slug := "float-grid", type := "grid-system",
     scssPath := "scss/grid/",
     description := "Classic float-based grid system" }]

/-- The full directory walk assembling the snapshot. -/
def computeIndex (env : Env) : FoundationIndex :=
  { plugins := indexPlugins env
    components := indexComponents env
    utilities := indexUtilities env
    grids := indexGrids }

/-- Result of one `buildIndex()` call: the returned snapshot, the cache
state after the call, and whether the call performed the directory walk. -/
structure BuildOutcome where
  index : FoundationIndex
  cache : CacheMap
  walked : Bool
deriving DecidableEq

/-- `buildIndex()`: return the cached snapshot when present, otherwise walk
the repository, assemble the snapshot and store it under the composite key. -/
def buildIndex (env : Env) (cache : CacheMap) : BuildOutcome :=
  match cacheGet cache pluginIndexKey with
  | some idx => ⟨idx, cache, false⟩
  | none =>
    let idx := computeIndex env
    ⟨idx, cacheSet cache pluginIndexKey idx, true⟩

/-- `invalidateCache()`: delete both composite keys. -/
def invalidateCache (cache : CacheMap) : CacheMap :=
  cacheDelete (cacheDelete cache pluginIndexKey) componentIndexKey

/-! ## Refactoring analyzer (`src/engines/RefactoringAnalyzer.ts`) -/

structure Suggestion where
  name : String
  slug : String
  similarity : Nat
  reasoning : String
deriving DecidableEq

structure CodeAdaptation where
  before : String
  after : String
  changes : List String
deriving DecidableEq

/-- `RefactoringAnalysis` of `src/engines/RefactoringAnalyzer.ts`. -/
structure RefactoringAnalysis where
  sourceType : String
  suggestedFoundationComponents : List Suggestion
  migrationSteps : List String
  codeAdaptation : CodeAdaptation
  breakingChanges : List String
  recommendedApproach : String
  integrationGuide : List String
deriving DecidableEq

/-- `hasFeature`: case-insensitive keyword battery on the raw source. -/
def hasFeature (code : String) (keywords : List String) : Bool :=
  keywords.any (fun k => jsIncludes (jsToLower code) k)

/-- The plugin feature object of `analyzePluginForRefactoring`, in its
object-literal key order. -/
def pluginFeaturePairs (code : String) : List (String × Bool) :=
  [("hasDropdown", hasFeature code ["dropdown", "menu", "select"]),
   ("hasAccordion", hasFeature code ["accordion", "toggle", "expand"]),
   ("hasModal", hasFeature code ["modal", "dialog", "overlay"]),
   ("hasCarousel", hasFeature code ["carousel", "slider", "rotation"]),
   ("hasTooltip", hasFeature code ["tooltip", "popover", "hint"]),
   ("hasForm", hasFeature code ["form", "validate", "validation"])]

/-- The component feature object of `analyzeComponentForRefactoring`, in its
object-literal key order. -/
def componentFeaturePairs (code : String) : List (String × Bool) :=
  [("hasButton", hasFeature code ["button", "btn"]),
   ("hasCard", hasFeature code ["card", "panel", "box"]),
   ("hasBadge", hasFeature code ["badge", "label", "tag"]),
   ("hasAlert", hasFeature code ["alert", "message", "notification"]),
   ("hasCallout", hasFeature code ["callout", "notice", "info"]),
   ("hasGrid", hasFeature code ["grid", "layout", "column"])]

/-- The static `featureToComponent` table. -/
def featureToComponent : List (String × String × String) :=
  [("hasDropdown", "Dropdown", "dropdown"),
   ("hasAccordion", "Accordion", "accordion"),
   ("hasModal", "Reveal", "reveal"),
   ("hasCarousel", "Orbit", "orbit"),
   ("hasTooltip", "Tooltip", "tooltip"),
   ("hasForm", "Abide", "abide"),
   ("hasButton", "Button", "button"),
   ("hasCard", "Card", "card"),
   ("hasBadge", "Badge", "badge"),
   ("hasAlert", "Callout", "callout"),
   ("hasCallout", "Callout", "callout"),
   ("hasGrid", "XY Grid", "xy-grid")]

/-- `feature.replace(/^has/, '')` (anchored, first occurrence only). -/
def stripHasTag (f : String) : String :=
  if jsStartsWith f "has" then jsDropChars f 3 else f

/-- The suggestion built for one detected feature. -/
def featureSuggestion (feature : String) : Option Suggestion :=
  (featureToComponent.find? (fun q => q.1 = feature)).map
    (fun q =>
      ⟨q.2.1, q.2.2, 85,
        "Detected " ++ jsToLower (stripHasTag feature) ++ " functionality"⟩)

/-- `findSimilarComponents`: the explicit-target short circuit (a truthy
target found in the duck-typed catalog) or the feature fan-out with a flat
similarity of 85, capped at the first three suggestions. -/
def findSimilarComponents {α : Type} (entryName entrySlug : α → String)
    (features : List (String × Bool)) (components : List α)
    (foundationTarget : Option String) : List Suggestion :=
  let fanOut :=
    (((features.filter (fun p => p.2)).map (fun p => p.1)).filterMap featureSuggestion).take 3
  match foundationTarget with
  | some t =>
    if t ≠ "" then
      match components.find? (fun c => entrySlug c = t) with
      | some target =>
        [⟨entryName target, entrySlug target, 100,
          "User specified target: " ++ entryName target⟩]
      | none => fanOut
    else fanOut
  | none => fanOut

/-- `generatePluginMigrationSteps`. -/
def generatePluginMigrationSteps (_parsed : ParsedPlugin)
    (suggestions : List Suggestion) : List String :=
  let steps :=
    ["1. Review Foundation plugin architecture and lifecycle methods",
     "2. Extend Foundation Plugin base class instead of custom base",
     "3. Implement required methods (_init, _destroy)",
     "4. Use Foundation Keyboard utility for keyboard events",
     "5. Replace custom events with Foundation event namespacing (.zf.pluginname)",
     "6. Use Foundation data attributes for configuration",
     "7. Implement accessibility with ARIA attributes",
     "8. Add unit tests following Foundation test patterns"]
  match suggestions.head? with
  | some s => ("0. Study " ++ s.name ++ " plugin as reference implementation") :: steps
  | none => steps

/-- `generateComponentMigrationSteps`. -/
def generateComponentMigrationSteps (_parsed : ParsedComponent)
    (suggestions : List Suggestion) : List String :=
  let steps :=
    ["1. Review Foundation component structure and mixins",
     "2. Align variable naming with Foundation conventions ($component-name)",
     "3. Convert to Foundation mixin-based approach",
     "4. Implement foundation-\x7bcomponent\x7d mixin for inclusion",
     "5. Add color and size variations using Foundation palette",
     "6. Use rem-calc() for responsive spacing",
     "7. Ensure accessibility with semantic HTML",
     "8. Add Sass tests using sass-true framework"]
  match suggestions.head? with
  | some s => ("0. Study " ++ s.name ++ " component as reference") :: steps
  | none => steps

/-- The fixed illustrative before/after pair of
`generatePluginCodeAdaptation` (not derived from the input). -/
def generatePluginCodeAdaptation (_parsed : ParsedPlugin)
    (_suggestion : Option Suggestion) : CodeAdaptation :=
  { before := "// Custom plugin\nclass CustomDropdown \x7b\n  constructor(element, options) \x7b\n    this.element = element;\n    this.options = options;\n    this.init();\n  \x7d\n\n  init() \x7b\n    this.element.addEventListener(\x27click\x27, () => this.toggle());\n  \x7d\n\n  toggle() \x7b\n    this.element.classList.toggle(\x27active\x27);\n    this.element.dispatchEvent(new Event(\x27toggle\x27));\n  \x7d\n\n  destroy() \x7b\n    this.element.removeEventListener(\x27click\x27, null);\n  \x7d\n\x7d"
    after := "// Foundation plugin\nimport \x7b Plugin \x7d from \x27./foundation.core.plugin\x27;\n\nexport class CustomDropdown extends Plugin \x7b\n  constructor(element, options = \x7b\x7d) \x7b\n    super(element, options);\n  \x7d\n\n  _init() \x7b\n    this._addEventListeners();\n  \x7d\n\n  _addEventListeners() \x7b\n    this.$element.on(\x27click.zf.customdropdown\x27, () => this.toggle());\n  \x7d\n\n  toggle() \x7b\n    this.$element.toggleClass(\x27is-active\x27);\n    this.$element.trigger(\x27toggle.zf.customdropdown\x27);\n  \x7d\n\n  _destroy() \x7b\n    this.$element.off(\x27.zf.customdropdown\x27);\n  \x7d\n\x7d\n\nCustomDropdown.defaults = \x7b\x7d;"
    changes :=
      ["Extends Plugin base class",
       "Constructor calls super()",
       "_init() instead of init()",
       "_destroy() for cleanup",
       "Uses jQuery ($element)",
       "Event namespacing with .zf.*",
       "Bootstrap method naming conventions"] }

/-- The fixed illustrative before/after pair of
`generateComponentCodeAdaptation`. -/
def generateComponentCodeAdaptation (_parsed : ParsedComponent)
    (_suggestion : Option Suggestion) : CodeAdaptation :=
  { before := "// Custom component\n$button-padding: 10px 15px;\n$button-background: #007bff;\n$button-color: white;\n\n.button \x7b\n  padding: $button-padding;\n  background-color: $button-background;\n  color: $button-color;\n  border: none;\n  cursor: pointer;\n\n  &:hover \x7b\n    background-color: darken($button-background, 10%);\n  \x7d\n\n  &.primary \x7b\n    background-color: #0056b3;\n  \x7d\n\n  &.secondary \x7b\n    background-color: #6c757d;\n  \x7d\n\x7d"
    after := "// Foundation component\n$button-padding: rem-calc(12 24) !default;\n$button-background: $primary-color !default;\n$button-color: color-pick-contrast($button-background) !default;\n$button-border-radius: $global-radius !default;\n\n/// Mixin to create button base styles\n@mixin button-base \x7b\n  padding: $button-padding;\n  background-color: $button-background;\n  color: $button-color;\n  border: 1px solid $button-background;\n  border-radius: $button-border-radius;\n  cursor: pointer;\n  transition: all 0.3s ease;\n\n  &:hover \x7b\n    background-color: shade($button-background, 10%);\n  \x7d\n\x7d\n\n/// Mixin to style button variants\n@mixin button-style($bg: $button-background, $color: $button-color) \x7b\n  background-color: $bg;\n  color: color-pick-contrast($bg);\n  border-color: $bg;\n\x7d\n\n/// Output button component\n@mixin foundation-button \x7b\n  .button \x7b\n    @include button-base;\n\n    @each $name, $color in $foundation-palette \x7b\n      &.\\#\x7b$name\x7d \x7b\n        @include button-style($color);\n      \x7d\n    \x7d\n  \x7d\n\x7d"
    changes :=
      ["Variables use rem-calc for responsive sizing",
       "Variables marked with !default for overridability",
       "Organized into reusable mixins",
       "Uses Foundation color palette",
       "Foundation naming conventions",
       "Includes mixin documentation",
       "Supports color variations automatically"] }

/-- `identifyPluginBreakingChanges`: substring-triggered remediation notes
followed by the fixed universal notes. -/
def identifyPluginBreakingChanges (code : String)
    (_suggestion : Option Suggestion) : List String :=
  (if jsIncludes code "addEventListener" then
    ["Replace addEventListener with jQuery .on() method"] else []) ++
  (if jsIncludes code "classList" then
    ["Use jQuery addClass/removeClass instead of classList"] else []) ++
  (if jsIncludes code "dispatchEvent" then
    ["Use jQuery .trigger() for events instead of dispatchEvent"] else []) ++
  (if ¬ jsIncludes code "destroy" then
    ["Must implement _destroy() for proper cleanup"] else []) ++
  (if ¬ jsIncludes code "ARIA" && ¬ jsIncludes code "aria-" then
    ["Add ARIA attributes for accessibility compliance"] else []) ++
  ["Data attribute format changes to [data-\x7bslug\x7d]",
   "Selector changes to use Foundation data attributes",
   "Event namespace changes to .zf.\x7bpluginname\x7d"]

/-- `identifyComponentBreakingChanges`. -/
def identifyComponentBreakingChanges (code : String)
    (_suggestion : Option Suggestion) : List String :=
  (if jsIncludes code "px" && ¬ jsIncludes code "rem" then
    ["Replace px units with rem-calc() for responsive design"] else []) ++
  (if ¬ jsIncludes code "!default" then
    ["Add !default flag to all variables for customization"] else []) ++
  (if ¬ jsIncludes code "@mixin" then
    ["Organize styles into reusable mixins"] else []) ++
  (if ¬ jsIncludes code "@include" then
    ["Include mixin in main component mixin"] else []) ++
  (if jsIncludes code "hardcoded colors" then
    ["Use Foundation color palette variables instead of hardcoded colors"] else []) ++
  ["CSS class naming may change to align with Foundation conventions",
   "Layout assumptions may conflict with Foundation grid system"]

/-- `generateRecommendedApproach`. -/
def generateRecommendedApproach (type : String)
    (suggestion : Option Suggestion) : String :=
  if type = "plugin" then
    "We recommend migrating to Foundation\x27s " ++
    jsOptOr (suggestion.map (fun s => s.name)) "equivalent plugin" ++
    " which provides:\n- Consistent plugin architecture and lifecycle management\n- Built-in accessibility features (ARIA, keyboard navigation)\n- jQuery integration and event handling\n- Comprehensive browser compatibility\n- Integration with Foundation utility functions\n\nStart by studying the Foundation plugin, then refactor your code to extend the Plugin base class.\nThis approach ensures consistency and long-term maintainability."
  else
    "We recommend migrating to Foundation\x27s " ++
    jsOptOr (suggestion.map (fun s => s.name)) "equivalent component" ++
    " which provides:\n- Responsive design with rem-calc() scaling\n- Customizable variables with !default flags\n- Pre-built color and size variations\n- Accessibility-first styling approach\n- Integration with Foundation\x27s design system\n\nRefactor your Sass to use Foundation\x27s mixin structure and variable naming conventions.\nThis enables theme customization and ensures consistency with the rest of Foundation."

/-- `generateIntegrationGuide`. -/
def generateIntegrationGuide (type : String)
    (suggestion : Option Suggestion) : List String :=
  if type = "plugin" then
    ["1. Create new file: js/foundation." ++
      jsOptOr (suggestion.map (fun s => s.slug)) "myplugin" ++ ".js",
     "Import Plugin base class: import \x7b Plugin \x7d from \"./foundation.core.plugin\";",
     "Export class: export \x7b MyPlugin \x7d;",
     "2. Register plugin in js/entries/foundation.js:",
     "   import \x7b MyPlugin \x7d from \x27../foundation." ++
      jsOptOr (suggestion.map (fun s => s.slug)) "myplugin" ++ "\x27;",
     "   Foundation.plugin(MyPlugin, \x27" ++
      jsOptOr (suggestion.map (fun s => s.name)) "MyPlugin" ++ "\x27);",
     "3. Create test file: test/javascript/\x7bslug\x7d.spec.js",
     "4. Add documentation: docs/pages/\x7bslug\x7d.md",
     "5. Run tests: yarn test:javascript:units",
     "6. Build and verify: yarn build"]
  else
    ["1. Create new file: scss/components/_" ++
      jsOptOr (suggestion.map (fun s => s.slug)) "mycomponent" ++ ".scss",
     "Define variables with !default flags",
     "Create reusable mixins for styling",
     "Create main @mixin foundation-\x7bslug\x7d",
     "2. Import in scss/foundation.scss:",
     "   @import \x27components/" ++
      jsOptOr (suggestion.map (fun s => s.slug)) "mycomponent" ++ "\x27;",
     "3. Include in foundation-everything mixin",
     "4. Create test file: test/sass/components/_\x7bslug\x7d.scss",
     "5. Add documentation: docs/pages/\x7bslug\x7d.md",
     "6. Run tests: yarn test:sass",
     "7. Build and verify: yarn build"]

/-- `analyzePluginForRefactoring`: parse the primary input (a `ParseError`
is rethrown unmodified), then build/fetch the index, then assemble the
report.  The second component is the cache state after the call. -/
def analyzePluginForRefactoring (env : Env) (cache : CacheMap)
    (sourceCode : String) (foundationTarget : Option String) :
    Except ParseErr RefactoringAnalysis × CacheMap :=
  match parsePluginText env.babel sourceCode with
  | .error e => (.error e, cache)
  | .ok parsed =>
    let b := buildIndex env cache
    let suggestions :=
      findSimilarComponents (fun p => p.name) (fun p => p.slug)
        (pluginFeaturePairs sourceCode) b.index.plugins foundationTarget
    (.ok
      { sourceType := "custom-plugin"
        suggestedFoundationComponents := suggestions
        migrationSteps := generatePluginMigrationSteps parsed suggestions
        codeAdaptation := generatePluginCodeAdaptation parsed suggestions.head?
        breakingChanges := identifyPluginBreakingChanges sourceCode suggestions.head?
        recommendedApproach := generateRecommendedApproach "plugin" suggestions.head?
        integrationGuide := generateIntegrationGuide "plugin" suggestions.head? },
      b.cache)

/-- `analyzeComponentForRefactoring`. -/
def analyzeComponentForRefactoring (env : Env) (cache : CacheMap)
    (sourceCode : String) (foundationTarget : Option String) :
    Except ParseErr RefactoringAnalysis × CacheMap :=
  match parseComponentText env.scss sourceCode with
  | .error e => (.error e, cache)
  | .ok parsed =>
    let b := buildIndex env cache
    let suggestions :=
      findSimilarComponents (fun c => c.name) (fun c => c.slug)
        (componentFeaturePairs sourceCode) b.index.components foundationTarget
    (.ok
      { sourceType := "custom-component"
        suggestedFoundationComponents := suggestions
        migrationSteps := generateComponentMigrationSteps parsed suggestions
        codeAdaptation := generateComponentCodeAdaptation parsed suggestions.head?
        breakingChanges := identifyComponentBreakingChanges sourceCode suggestions.head?
        recommendedApproach := generateRecommendedApproach "component" suggestions.head?
        integrationGuide := generateIntegrationGuide "component" suggestions.head? },
      b.cache)

/-- `analyzeForRefactoring`: kind dispatch. -/
def analyzeForRefactoring (env : Env) (cache : CacheMap) (sourceCode : String)
    (sourceType : String) (foundationTarget : Option String) :
    Except ParseErr RefactoringAnalysis × CacheMap :=
  if sourceType = "custom-plugin" then
    analyzePluginForRefactoring env cache sourceCode foundationTarget
  else analyzeComponentForRefactoring env cache sourceCode foundationTarget

/-! ## Theorems -/

/-! ### C1 — stylesheet doc-comment attachment -/

/-- The pending-comment value left by the full `walkComments` pass of
`parseComponent`: the trimmed text of the last comment of the document, or
`""` when the document has no comment. -/
def pendingAfterComments (nodes : List ScssNode) : String :=
  (walkComments nodes).foldl (fun _ t => jsTrim t) ""

/-- Description column asserted by the amended claim: the first recorded
variable carries the pending comment (absent when it is empty), every later
variable carries none. -/
def specDescriptionList (pending : String) : Nat → List (Option String)
  | 0 => []
  | m + 1 => (if pending = "" then none else some pending) :: List.replicate m none

/-- Recursive characterisation of the variable pass of `parseComponent`. -/
def varsSpec (pending : String) : List (String × String) → List SassVariable
  | [] => []
  | d :: ds =>
    if jsStartsWith d.1 "$" then
      ⟨d.1, d.2, if pending = "" then none else some pending⟩ :: varsSpec "" ds
    else varsSpec pending ds

/-- Whether any walked declaration is a `$`-variable (the pending comment is
cleared exactly when one is). -/
def pendingAfterVars (pending : String) (decls : List (String × String)) : String :=
  if decls.any (fun d => jsStartsWith d.1 "$") then "" else pending

theorem componentVar_fold (decls : List (String × String)) :
    ∀ pending acc, decls.foldl componentVarStep (pending, acc) =
      (pendingAfterVars pending decls, acc ++ varsSpec pending decls) := by
  induction decls with
  | nil => intro pending acc; simp [pendingAfterVars, varsSpec]
  | cons d ds ih =>
    intro pending acc
    by_cases hd : jsStartsWith d.1 "$" = true
    · simp only [List.foldl_cons, componentVarStep, hd, if_pos]
      rw [ih]
      simp [pendingAfterVars, varsSpec, hd, List.any_cons]
    · simp only [Bool.not_eq_true] at hd
      simp only [List.foldl_cons, componentVarStep, hd, Bool.false_eq_true, if_false]
      rw [ih]
      have h1 : pendingAfterVars pending (d :: ds) = pendingAfterVars pending ds := by
        unfold pendingAfterVars
        rw [List.any_cons, hd, Bool.false_or]
      have h2 : varsSpec pending (d :: ds) = varsSpec pending ds := by
        simp [varsSpec, hd]
      rw [h1, h2]

theorem varsSpec_empty_descriptions (ds : List (String × String)) :
    (varsSpec "" ds).map (fun v => v.description) =
      List.replicate (varsSpec "" ds).length none := by
  induction ds with
  | nil => simp [varsSpec]
  | cons d ds ih =>
    by_cases hd : jsStartsWith d.1 "$" = true
    · simp [varsSpec, hd, ih, List.replicate]
    · simp only [Bool.not_eq_true] at hd
      simp [varsSpec, hd, ih]

theorem varsSpec_descriptions (pending : String) (ds : List (String × String)) :
    (varsSpec pending ds).map (fun v => v.description) =
      specDescriptionList pending (varsSpec pending ds).length := by
  induction ds with
  | nil => simp [varsSpec, specDescriptionList]
  | cons d ds ih =>
    by_cases hd : jsStartsWith d.1 "$" = true
    · simp [varsSpec, hd, specDescriptionList, varsSpec_empty_descriptions]
    · simp only [Bool.not_eq_true] at hd
      simp [varsSpec, hd, ih]

/-- C1, counterexample.  The claim asserts that each `$`-variable's
description is the *nearest preceding* doc-comment, so for the document
`comment "A"; $v1: 1; comment "B"; $v2: 2` it predicts descriptions
`[some "A", some "B"]`.  The code walks all comments before walking any
declaration, so `$v1` receives the *last* comment of the whole document
("B") and `$v2` receives nothing. -/
theorem parseComponent_doc_attach_counterexample :
    (parseComponentAst
        [.comment "A", .decl "$v1" "1", .comment "B", .decl "$v2" "2"]).vars.map
      (fun v => v.description) = [some "B", none] ∧
    (parseComponentAst
        [.comment "A", .decl "$v1" "1", .comment "B", .decl "$v2" "2"]).vars.map
      (fun v => v.description) ≠ [some "A", some "B"] := by
  constructor
  · simp only [parseComponentAst, walkComments, walkDecls, componentVarStep,
      jsTrim, jsTrimL, jsIsSpace]
    decide
  · simp only [parseComponentAst, walkComments, walkDecls, componentVarStep,
      jsTrim, jsTrimL, jsIsSpace]
    decide

/-- C1, amended.  For every stylesheet AST, the description of the first
recorded `$`-variable is the trimmed text of the last comment block of the
entire document (absent when there is none or it trims to empty) — not the
nearest preceding comment — and every later variable's description is
absent, the pending comment having been consumed (cleared) by the first
variable.  In particular a document consisting of one doc-comment with text
"Padding amount" followed by `$pad: 1rem` records `$pad` with description
"Padding amount". -/
theorem parseComponent_doc_attach_amended :
    (∀ nodes : List ScssNode,
      (parseComponentAst nodes).vars.map (fun v => v.description) =
        specDescriptionList (pendingAfterComments nodes)
          (parseComponentAst nodes).vars.length) ∧
    (parseComponentAst [.comment "Padding amount", .decl "$pad" "1rem"]).vars =
      [⟨"$pad", "1rem", some "Padding amount"⟩] := by
  constructor
  · intro nodes
    show ((walkDecls nodes).foldl componentVarStep (pendingAfterComments nodes, [])).2.map
        (fun v => v.description) =
      specDescriptionList (pendingAfterComments nodes)
        ((walkDecls nodes).foldl componentVarStep (pendingAfterComments nodes, [])).2.length
    rw [componentVar_fold]
    simp [varsSpec_descriptions]
  · simp only [parseComponentAst, walkComments, walkDecls, componentVarStep,
      jsTrim, jsTrimL, jsIsSpace]
    decide

/-! ### C9 — class-name resolution priority in `parsePlugin` -/

theorem visitCall_core (st : ParsedPlugin) (call : JsCall) :
    (visitCall st call).className = st.className ∧
    (visitCall st call).extendsClass = st.extendsClass := by
  unfold visitCall
  split
  · cases call.firstArgLit <;> simp
  · simp

theorem foldl_core_preserve {α : Type}
    (f : ParsedPlugin → α → ParsedPlugin)
    (hf : ∀ st a, (f st a).className = st.className ∧
      (f st a).extendsClass = st.extendsClass) :
    ∀ (l : List α) (st : ParsedPlugin),
      ((l.foldl f st).className = st.className ∧
       (l.foldl f st).extendsClass = st.extendsClass) := by
  intro l
  induction l with
  | nil => intro st; simp
  | cons a as ih =>
    intro st
    have h1 := hf st a
    have h2 := ih (f st a)
    exact ⟨h2.1.trans h1.1, h2.2.trans h1.2⟩

theorem visitCallsOfBody_core (st : ParsedPlugin) (body : List ClassMember) :
    (visitCallsOfBody st body).className = st.className ∧
    (visitCallsOfBody st body).extendsClass = st.extendsClass := by
  unfold visitCallsOfBody
  exact foldl_core_preserve _
    (fun st m => foldl_core_preserve visitCall visitCall_core (memberCalls m) st)
    body st

theorem exportMemberPass_core (st : ParsedPlugin) (body : List ClassMember) :
    (exportMemberPass st body).className = st.className ∧
    (exportMemberPass st body).extendsClass = st.extendsClass := by
  unfold exportMemberPass
  refine foldl_core_preserve _ ?_ body st
  intro st m
  cases m <;> simp

theorem classMemberPass_core (st : ParsedPlugin) (body : List ClassMember) :
    (classMemberPass st body).className = st.className ∧
    (classMemberPass st body).extendsClass = st.extendsClass := by
  unfold classMemberPass
  refine foldl_core_preserve _ ?_ body st
  intro st m
  cases m <;> dsimp only [] <;> (try split) <;> simp

theorem visitExportedClass_core (st : ParsedPlugin) (c : ClassDecl) :
    (visitExportedClass st c).className =
      (match c.id with | some n => n | none => st.className) ∧
    (visitExportedClass st c).extendsClass =
      (match c.superClass with | some s => some s | none => st.extendsClass) := by
  unfold visitExportedClass
  have h := exportMemberPass_core
  cases hid : c.id <;> cases hsup : c.superClass <;>
    simp [hid, hsup, exportMemberPass_core]

theorem visitClassDecl_className (st : ParsedPlugin) (c : ClassDecl)
    (hne : st.className ≠ "") :
    (visitClassDecl st c).className = st.className := by
  unfold visitClassDecl
  cases hid : c.id <;> cases hsup : c.superClass <;>
    simp [hid, hsup, classMemberPass_core, hne] <;>
    split <;> simp [classMemberPass_core, hne]

theorem visitClassDecl_extends (st : ParsedPlugin) (c : ClassDecl) (e : String)
    (he : st.extendsClass = some e) :
    (visitClassDecl st c).extendsClass = some e := by
  unfold visitClassDecl
  cases hid : c.id <;> cases hsup : c.superClass <;>
    simp [hid, hsup, classMemberPass_core, he] <;>
    split <;> simp [classMemberPass_core, he]

theorem visitStmt_className_keep (st : ParsedPlugin) (s : JsStmt)
    (hne : st.className ≠ "")
    (hexp : ∀ c, s = .exportNamedClass c → c.id = none) :
    (visitStmt st s).className = st.className := by
  cases s with
  | importDecl src => simp only [visitStmt]; split <;> simp
  | exportNamedClass c =>
    have hid : c.id = none := hexp c rfl
    simp only [visitStmt]
    rw [(visitCallsOfBody_core _ _).1]
    have h1 : (visitExportedClass st c).className = st.className := by
      rw [(visitExportedClass_core st c).1, hid]
    have h2 : (visitExportedClass st c).className ≠ "" := by rw [h1]; exact hne
    rw [visitClassDecl_className _ _ h2, h1]
  | classDecl c =>
    simp only [visitStmt]
    rw [(visitCallsOfBody_core _ _).1]
    exact visitClassDecl_className st c hne
  | otherStmt calls =>
    simp only [visitStmt]
    exact (foldl_core_preserve visitCall visitCall_core calls st).1

theorem visitStmt_extends_keep (st : ParsedPlugin) (s : JsStmt) (e : String)
    (he : st.extendsClass = some e)
    (hexp : ∀ c, s = .exportNamedClass c → c.superClass = none) :
    (visitStmt st s).extendsClass = some e := by
  cases s with
  | importDecl src => simp only [visitStmt]; split <;> simp [he]
  | exportNamedClass c =>
    have hsup : c.superClass = none := hexp c rfl
    simp only [visitStmt]
    rw [(visitCallsOfBody_core _ _).2]
    have h1 : (visitExportedClass st c).extendsClass = some e := by
      rw [(visitExportedClass_core st c).2, hsup]; exact he
    exact visitClassDecl_extends _ c e h1
  | classDecl c =>
    simp only [visitStmt]
    rw [(visitCallsOfBody_core _ _).2]
    exact visitClassDecl_extends st c e he
  | otherStmt calls =>
    simp only [visitStmt]
    rw [(foldl_core_preserve visitCall visitCall_core calls st).2]
    exact he

theorem foldStmts_className_frozen (stmts : List JsStmt) :
    ∀ st : ParsedPlugin, st.className ≠ "" →
    (∀ c, JsStmt.exportNamedClass c ∈ stmts → c.id = none) →
    (stmts.foldl visitStmt st).className = st.className := by
  induction stmts with
  | nil => intro st _ _; rfl
  | cons s ss ih =>
    intro st hne hexp
    have hstep : (visitStmt st s).className = st.className :=
      visitStmt_className_keep st s hne
        (fun c hc => hexp c (by rw [hc]; exact List.mem_cons_self _ _))
    rw [List.foldl_cons]
    rw [ih (visitStmt st s) (by rw [hstep]; exact hne)
      (fun c hc => hexp c (List.mem_cons_of_mem _ hc))]
    exact hstep

theorem foldStmts_extends_frozen (stmts : List JsStmt) :
    ∀ (st : ParsedPlugin) (e : String), st.extendsClass = some e →
    (∀ c, JsStmt.exportNamedClass c ∈ stmts → c.superClass = none) →
    (stmts.foldl visitStmt st).extendsClass = some e := by
  induction stmts with
  | nil => intro st e he _; exact he
  | cons s ss ih =>
    intro st e he hexp
    have hstep : (visitStmt st s).extendsClass = some e :=
      visitStmt_extends_keep st s e he
        (fun c hc => hexp c (by rw [hc]; exact List.mem_cons_self _ _))
    rw [List.foldl_cons]
    exact ih (visitStmt st s) e hstep (fun c hc => hexp c (List.mem_cons_of_mem _ hc))

theorem visitStmt_export_sets (st : ParsedPlugin) (c : ClassDecl) (n : String)
    (hid : c.id = some n) :
    (visitStmt st (.exportNamedClass c)).className = n ∧
    (∀ s, c.superClass = some s →
      (visitStmt st (.exportNamedClass c)).extendsClass = some s) := by
  constructor
  · simp only [visitStmt]
    rw [(visitCallsOfBody_core _ _).1]
    have h1 : (visitExportedClass st c).className = n := by
      rw [(visitExportedClass_core st c).1, hid]
    by_cases hz : (visitExportedClass st c).className = ""
    · unfold visitClassDecl
      cases hsup : c.superClass with
      | none =>
        simp [hid, hsup, classMemberPass_core, hz, h1]
      | some s2 =>
        simp only [hid, hsup, hz, if_pos]
        split <;> simp [classMemberPass_core, h1, hz.symm.trans h1]
    · rw [visitClassDecl_className _ _ hz, h1]
  · intro s hsup
    simp only [visitStmt]
    rw [(visitCallsOfBody_core _ _).2]
    have h1 : (visitExportedClass st c).extendsClass = some s := by
      rw [(visitExportedClass_core st c).2, hsup]
    exact visitClassDecl_extends _ c s h1

/-- C9, counterexample.  The claim asserts that when a program contains
both an exported class declaration and a bare class declaration, *both*
`className` and `parentClassName` come from the exported declaration.  For
`class A extends B {}` followed by `export class C {}` the exported
declaration has no superclass, yet the result keeps `extendsClass = "B"`
from the earlier bare class — the export visitor overwrites the superclass
only when the exported class itself has an identifier superclass. -/
theorem parsePlugin_class_priority_counterexample :
    (parsePluginAst
        [.classDecl ⟨some "A", some "B", []⟩,
         .exportNamedClass ⟨some "C", none, []⟩]).className = "C" ∧
    (parsePluginAst
        [.classDecl ⟨some "A", some "B", []⟩,
         .exportNamedClass ⟨some "C", none, []⟩]).extendsClass = some "B" := by
  constructor <;> rfl

/-- C9, amended.  An exported class declaration always wins for
`className` (its name overwrites unconditionally, and no later bare class
or id-less export can change it); `parentClassName` comes from the exported
declaration whenever that declaration has an identifier superclass (and no
later exported class has one); but when the exported class has no
superclass, a superclass already recorded from an earlier bare class
persists.  A bare class declaration fills `className`/`parentClassName`
only when no value has been found yet and never overwrites one already
found. -/
theorem parsePlugin_class_priority_amended
    (pre post : List JsStmt) (c : ClassDecl) (n : String)
    (hid : c.id = some n) (hn : n ≠ "") :
    ((∀ c2, JsStmt.exportNamedClass c2 ∈ post → c2.id = none) →
      (parsePluginAst (pre ++ .exportNamedClass c :: post)).className = n) ∧
    (∀ s, c.superClass = some s →
      (∀ c2, JsStmt.exportNamedClass c2 ∈ post → c2.superClass = none) →
      (parsePluginAst (pre ++ .exportNamedClass c :: post)).extendsClass = some s) ∧
    (∀ (stmts : List JsStmt) (bc : ClassDecl),
      ((parsePluginAst stmts).className ≠ "" →
        (parsePluginAst (stmts ++ [.classDecl bc])).className =
          (parsePluginAst stmts).className) ∧
      (∀ e, (parsePluginAst stmts).extendsClass = some e →
        (parsePluginAst (stmts ++ [.classDecl bc])).extendsClass = some e)) := by
  refine ⟨?_, ?_, ?_⟩
  · intro hpost
    unfold parsePluginAst
    rw [List.foldl_append, List.foldl_cons]
    have hset := (visitStmt_export_sets (List.foldl visitStmt emptyParsedPlugin pre) c n hid).1
    rw [foldStmts_className_frozen post _ (by rw [hset]; exact hn) hpost]
    exact hset
  · intro s hsup hpost
    unfold parsePluginAst
    rw [List.foldl_append, List.foldl_cons]
    have hset :=
      (visitStmt_export_sets (List.foldl visitStmt emptyParsedPlugin pre) c n hid).2 s hsup
    exact foldStmts_extends_frozen post _ s hset hpost
  · intro stmts bc
    constructor
    · intro hne
      unfold parsePluginAst
      rw [List.foldl_append]
      exact visitStmt_className_keep _ (.classDecl bc) hne (fun c2 h => by cases h)
    · intro e he
      unfold parsePluginAst
      rw [List.foldl_append]
      exact visitStmt_extends_keep _ (.classDecl bc) e he (fun c2 h => by cases h)

/-- C9 witness: instantiating the amended theorem at
`class A extends B {}; export class C extends D {}` gives
`className = "C"` and `extendsClass = "D"`, and a bare class appended after
an exported one changes neither. -/
theorem parsePlugin_class_priority_amended_witness :
    (parsePluginAst
        [.classDecl ⟨some "A", some "B", []⟩,
         .exportNamedClass ⟨some "C", some "D", []⟩]).className = "C" ∧
    (parsePluginAst
        [.classDecl ⟨some "A", some "B", []⟩,
         .exportNamedClass ⟨some "C", some "D", []⟩]).extendsClass = some "D" ∧
    (parsePluginAst
        [.exportNamedClass ⟨some "C", some "D", []⟩,
         .classDecl ⟨some "A", some "B", []⟩]).className = "C" := by
  have h := parsePlugin_class_priority_amended
    [.classDecl ⟨some "A", some "B", []⟩] [] ⟨some "C", some "D", []⟩ "C"
    rfl (by decide)
  refine ⟨h.1 (by intro c2 hc2; cases hc2), h.2.1 "D" rfl (by intro c2 hc2; cases hc2), ?_⟩
  have h2 := (h.2.2 [.exportNamedClass ⟨some "C", some "D", []⟩]
    ⟨some "A", some "B", []⟩).1 (by decide)
  rw [show ([JsStmt.exportNamedClass ⟨some "C", some "D", []⟩] ++
      [JsStmt.classDecl ⟨some "A", some "B", []⟩]) =
      [JsStmt.exportNamedClass ⟨some "C", some "D", []⟩,
       JsStmt.classDecl ⟨some "A", some "B", []⟩] from rfl] at h2
  rw [h2]
  decide

/-! ### C2 — pattern-analyzer scoring boundary -/

theorem isPascalCase_ne_empty (s : String) (h : isPascalCase s = true) : s ≠ "" := by
  intro heq
  rw [heq] at h
  exact absurd h (by decide)

/-- A source meeting every check of the claim: extends `Plugin`, implements
`_init`/`_destroy`, has a constructor, PascalCase name, doc-comment and
class-tag markers, a namespaced trigger event, ARIA marker, keyboard marker
and focus call. -/
def idealPluginProg : List JsStmt :=
  [.exportNamedClass ⟨some "Acc", some "Plugin",
    [.method "constructor" [], .method "_init" [], .method "_destroy" []]⟩]

def idealPluginCode : String :=
  "/** @class */ aria- Keyboard focus() x.trigger(\x27open.zf.acc\x27)"

def idealBabel : String → Except String (List JsStmt) :=
  fun _ => .ok idealPluginProg

/-- C2, counterexample.  The claim asserts the ideal source scores 100 on
each of the three conformance axes.  The architecture axis awards
30 + 40 + 10 = 80 points in total, so even the ideal source scores 80
there, not 100. -/
theorem analyzePluginPattern_boundary_counterexample :
    (analyzePluginPattern idealBabel idealPluginCode).conformance.architecture = 80 ∧
    (analyzePluginPattern idealBabel idealPluginCode).conformance ≠
      ⟨100, 100, 100⟩ := by
  constructor <;> decide

/-- C2, amended.  A plugin source that extends the expected base class,
implements both required lifecycle methods, has a constructor, a PascalCase
class name, doc-comment and class-tag markers, only namespaced trigger
events, an ARIA marker, a keyboard marker and a focus call scores
80/100/100 on the three conformance axes (the architecture axis weights sum
to 80, not 100) and the overall classification is "matches". -/
theorem analyzePluginPattern_boundary_amended
    (babel : String → Except String (List JsStmt)) (code : String)
    (prog : List JsStmt) (hb : babel code = .ok prog)
    (hext : (parsePluginAst prog).extendsClass = some "Plugin")
    (hinit : (parsePluginAst prog).methods.contains "_init" = true)
    (hdest : (parsePluginAst prog).methods.contains "_destroy" = true)
    (hctor : (parsePluginAst prog).methods.contains "constructor" = true)
    (hpas : isPascalCase (parsePluginAst prog).className = true)
    (hdoc : jsIncludes code "/**" = true) (htag : jsIncludes code "@class" = true)
    (hev : ∀ e ∈ scanTriggerEvents code, jsIncludes e ".zf." = true)
    (haria : jsIncludes code "aria-" = true)
    (hkey : jsIncludes code "Keyboard" = true)
    (hfoc : jsIncludes code "focus()" = true) :
    (analyzePluginPattern babel code).conformance = ⟨80, 100, 100⟩ ∧
    (analyzePluginPattern babel code).matchesKind = "matches" := by
  have hne := isPascalCase_ne_empty _ hpas
  have hinitm : "_init" ∈ (parsePluginAst prog).methods := by simpa using hinit
  have hdestm : "_destroy" ∈ (parsePluginAst prog).methods := by simpa using hdest
  have hctorm : "constructor" ∈ (parsePluginAst prog).methods := by simpa using hctor
  have hevprop : (∃ x ∈ scanTriggerEvents code, jsIncludes x ".zf." = true) ∨
      scanTriggerEvents code = [] := by
    cases h : scanTriggerEvents code with
    | nil => exact Or.inr rfl
    | cons e es =>
      have hm : e ∈ scanTriggerEvents code := by
        rw [h]; exact List.mem_cons_self _ _
      exact Or.inl ⟨e, List.mem_cons_self _ _, hev e hm⟩
  simp only [analyzePluginPattern, parsePluginText, hb]
  simp [hext, hctorm, hinitm, hdestm, hpas, hne, hdoc, htag, hevprop, haria, hkey, hfoc]

/-- C2 witness: the ideal source instantiates every hypothesis of the
amended theorem and indeed reports 80/100/100 and "matches". -/
theorem analyzePluginPattern_boundary_amended_witness :
    (analyzePluginPattern idealBabel idealPluginCode).conformance = ⟨80, 100, 100⟩ ∧
    (analyzePluginPattern idealBabel idealPluginCode).matchesKind = "matches" :=
  analyzePluginPattern_boundary_amended idealBabel idealPluginCode idealPluginProg
    rfl (by decide) (by decide) (by decide) (by decide) (by decide) (by decide)
    (by decide)
    (by
      intro e he
      rw [show scanTriggerEvents idealPluginCode = ["open.zf.acc"] by decide] at he
      simp at he
      subst he
      decide)
    (by decide) (by decide) (by decide)

/-! ### C8 — deterministic failure report of the pattern analyzer -/

/-- C8: whenever the script grammar rejects the input, `analyzePluginPattern`
returns the fixed report: classification "no-match", exactly one
error-severity issue stating the parse failed, all three conformance axes
zero, and exactly one suggestion telling the caller to fix syntax errors. -/
theorem analyzePluginPattern_failure_report
    (babel : String → Except String (List JsStmt)) (code msg : String)
    (h : babel code = .error msg) :
    analyzePluginPattern babel code =
      { matchesKind := "no-match"
        issues := [{ severity := "error", message := "Failed to parse code",
                     line := none,
                     suggestion := some "Ensure code is valid JavaScript" }]
        conformance := ⟨0, 0, 0⟩
        suggestions := ["Fix syntax errors before analyzing"] } := by
  simp [analyzePluginPattern, parsePluginText, h, parseFailureReport]

/-- C8 witness: a grammar rejecting everything produces exactly the fixed
failure report. -/
theorem analyzePluginPattern_failure_report_witness :
    analyzePluginPattern (fun _ => .error "Unexpected token") "class \x7b" =
      { matchesKind := "no-match"
        issues := [{ severity := "error", message := "Failed to parse code",
                     line := none,
                     suggestion := some "Ensure code is valid JavaScript" }]
        conformance := ⟨0, 0, 0⟩
        suggestions := ["Fix syntax errors before analyzing"] } :=
  analyzePluginPattern_failure_report (fun _ => .error "Unexpected token")
    "class \x7b" "Unexpected token" rfl

/-! ### C7 — a primary-input parse error is fatal to refactoring analysis -/

/-- C7: a `ParseError` raised while parsing the primary input of
`analyzeForRefactoring` propagates to the caller unmodified (the wrapped
grammar message with the source as context), for both declared source
kinds; the cache is untouched and no partial `RefactoringAnalysis` is
produced. -/
theorem refactoring_parse_error_fatal (env : Env) (cache : CacheMap)
    (code msg : String) (target : Option String) :
    (env.babel code = .error msg →
      analyzeForRefactoring env cache code "custom-plugin" target =
        (.error ⟨"Failed to parse JavaScript plugin: " ++ msg, code⟩, cache)) ∧
    (env.scss code = .error msg →
      analyzeForRefactoring env cache code "custom-component" target =
        (.error ⟨"Failed to parse SCSS component: " ++ msg, code⟩, cache)) := by
  constructor
  · intro h
    simp [analyzeForRefactoring, analyzePluginForRefactoring, parsePluginText, h]
  · intro h
    simp [analyzeForRefactoring, analyzeComponentForRefactoring, parseComponentText, h]

/-- C7 witness: concrete grammars rejecting the input surface the wrapped
`ParseError` for both kinds. -/
theorem refactoring_parse_error_fatal_witness :
    (analyzeForRefactoring
        ⟨fun _ => .error "boom", fun _ => .error "bang",
         ⟨fun _ => false, fun _ => .error "io", [], [], [], fun p => p⟩⟩
        [] "x" "custom-plugin" none =
      (.error ⟨"Failed to parse JavaScript plugin: boom", "x"⟩, [])) ∧
    (analyzeForRefactoring
        ⟨fun _ => .error "boom", fun _ => .error "bang",
         ⟨fun _ => false, fun _ => .error "io", [], [], [], fun p => p⟩⟩
        [] "x" "custom-component" none =
      (.error ⟨"Failed to parse SCSS component: bang", "x"⟩, [])) :=
  ⟨(refactoring_parse_error_fatal _ [] "x" "boom" none).1 rfl,
   (refactoring_parse_error_fatal _ [] "x" "bang" none).2 rfl⟩

/-! ### C10 — `analyzePattern` file-path indirection -/

/-- C10: when the `code` parameter of `analyzePattern` names an existing
filesystem path, the analyzer reads that file and analyzes its contents
instead of the parameter itself; only when no such file exists is the
parameter analyzed directly as source text. -/
theorem analyzePattern_path_indirection (env : Env)
    (code patternType contents : String) :
    (env.fs.pathExists code = true → env.fs.read code = .ok contents →
      analyzePattern env code patternType =
        .ok (dispatchPattern env.babel patternType contents)) ∧
    (env.fs.pathExists code = false →
      analyzePattern env code patternType =
        .ok (dispatchPattern env.babel patternType code)) := by
  constructor
  · intro hex hread
    simp [analyzePattern, hex, hread]
  · intro hex
    simp [analyzePattern, hex]

/-- C10 witness: with a file source where path "/p.js" exists with contents
"filecontents", analyzing "/p.js" analyzes the contents, and analyzing a
missing path analyzes the parameter itself. -/
theorem analyzePattern_path_indirection_witness :
    (analyzePattern
        ⟨fun _ => .ok [], fun _ => .ok [],
         ⟨fun p => p = "/p.js", fun _ => .ok "filecontents", [], [], [], fun p => p⟩⟩
        "/p.js" "plugin" =
      .ok (dispatchPattern (fun _ => .ok []) "plugin" "filecontents")) ∧
    (analyzePattern
        ⟨fun _ => .ok [], fun _ => .ok [],
         ⟨fun p => p = "/p.js", fun _ => .ok "filecontents", [], [], [], fun p => p⟩⟩
        "other code" "plugin" =
      .ok (dispatchPattern (fun _ => .ok []) "plugin" "other code")) :=
  ⟨(analyzePattern_path_indirection _ "/p.js" "plugin" "filecontents").1
      (by decide) rfl,
   (analyzePattern_path_indirection _ "other code" "plugin" "filecontents").2
      (by decide)⟩

/-! ### C5 — cache idempotence and invalidation of `buildIndex` -/

theorem cacheGet_set_self (cache : CacheMap) (k : String) (v : FoundationIndex) :
    cacheGet (cacheSet cache k v) k = some v := by
  simp [cacheGet, cacheSet, List.find?]

theorem cacheGet_invalidate (cache : CacheMap) :
    cacheGet (invalidateCache cache) pluginIndexKey = none := by
  unfold invalidateCache cacheDelete cacheGet
  rw [List.find?_eq_none.mpr]
  · rfl
  · intro p hp
    have h1 := (List.mem_filter.mp hp).1
    have h2 := (List.mem_filter.mp h1).2
    simp only [decide_not] at h2 ⊢
    simpa using h2

/-- C5: calling `buildIndex()` twice without an intervening
`invalidateCache()` returns structurally equal snapshots, the second call
being served from the cache without a directory walk; after
`invalidateCache()` the next `buildIndex()` performs a full rebuild (a
fresh walk producing `computeIndex`), not an incremental update. -/
theorem buildIndex_cache_behaviour (env : Env) (cache : CacheMap) :
    ((buildIndex env (buildIndex env cache).cache).index =
        (buildIndex env cache).index ∧
     (buildIndex env (buildIndex env cache).cache).walked = false) ∧
    ((buildIndex env (invalidateCache (buildIndex env cache).cache)).walked = true ∧
     (buildIndex env (invalidateCache (buildIndex env cache).cache)).index =
        computeIndex env) := by
  cases h : cacheGet cache pluginIndexKey with
  | some idx =>
    have hb : buildIndex env cache = ⟨idx, cache, false⟩ := by
      simp [buildIndex, h]
    rw [hb]
    exact ⟨by constructor <;> simp [buildIndex, h],
      by constructor <;> simp [buildIndex, cacheGet_invalidate]⟩
  | none =>
    have hb : buildIndex env cache =
        ⟨computeIndex env, cacheSet cache pluginIndexKey (computeIndex env), true⟩ := by
      simp [buildIndex, h]
    rw [hb]
    exact ⟨by constructor <;> simp [buildIndex, cacheGet_set_self],
      by constructor <;> simp [buildIndex, cacheGet_invalidate]⟩

/-! ### C6 — per-file error isolation in the index build -/

/-- The per-file outcome of the plugin walk: `none` when the file is
skipped by name, fails to read or parse, or has no class name. -/
def pluginStep (env : Env) (file : String) : Option FoundationPlugin :=
  if pluginFileSkipped file then none
  else
    match parsePluginFileE env file with
    | .ok (some p) => some p
    | .ok none => none
    | .error _ => none

theorem foldl_pushes_filterMap {α β : Type} (g : α → Option β) :
    ∀ (l : List α) (acc : List β),
      l.foldl (fun acc x => (g x).elim acc (fun y => acc ++ [y])) acc =
        acc ++ l.filterMap g := by
  intro l
  induction l with
  | nil => intro acc; simp
  | cons x xs ih =>
    intro acc
    rw [List.foldl_cons, ih, List.filterMap_cons]
    cases g x <;> simp

theorem indexPluginsOn_eq_filterMap (env : Env) (files : List String) :
    indexPluginsOn env files = files.filterMap (pluginStep env) := by
  unfold indexPluginsOn
  have hfun : (fun (acc : List FoundationPlugin) file =>
      if pluginFileSkipped file then acc
      else
        match parsePluginFileE env file with
        | .ok (some p) => acc ++ [p]
        | .ok none => acc
        | .error _ => acc) =
      (fun acc file =>
        (pluginStep env file).elim acc (fun y => acc ++ [y])) := by
    funext acc file
    unfold pluginStep
    split
    · rfl
    · cases h : parsePluginFileE env file with
      | ok o => cases o <;> simp
      | error e => simp
  rw [hfun]
  have h := foldl_pushes_filterMap (pluginStep env) files []
  rw [List.nil_append] at h
  exact h

/-- C6: a failure on a single file of the plugin walk (I/O or parse error,
surfacing as the `Except.error` case of the per-file parse) is caught and
the file is omitted from the catalog — the remaining files index exactly as
if the failing file were absent, and the walk itself always completes. -/
theorem indexPlugins_error_isolation (env : Env) (pre post : List String)
    (file : String) (hfail : ∃ e, parsePluginFileE env file = .error e) :
    indexPluginsOn env (pre ++ file :: post) = indexPluginsOn env (pre ++ post) := by
  obtain ⟨e, he⟩ := hfail
  have hstep : pluginStep env file = none := by
    unfold pluginStep
    split
    · rfl
    · rw [he]
  rw [indexPluginsOn_eq_filterMap, indexPluginsOn_eq_filterMap]
  simp [List.filterMap_append, List.filterMap_cons, hstep]

/-- A walk of ten plugin files where exactly one has invalid syntax: the
script grammar rejects the content "BAD" served for `foundation.bad.js` and
accepts everything else with a parseable class. -/
def walkEnv : Env :=
  ⟨fun c =>
    if c = "BAD" then .error "Unexpected token"
    else .ok [.classDecl ⟨some "Tabs", some "Plugin", []⟩],
   fun _ => .ok [],
   ⟨fun _ => true,
    fun f => .ok (if f = "/repo/js/foundation.bad.js" then "BAD" else "ok"),
    ["/repo/js/foundation.p1.js", "/repo/js/foundation.p2.js",
     "/repo/js/foundation.p3.js", "/repo/js/foundation.p4.js",
     "/repo/js/foundation.bad.js", "/repo/js/foundation.p5.js",
     "/repo/js/foundation.p6.js", "/repo/js/foundation.p7.js",
     "/repo/js/foundation.p8.js", "/repo/js/foundation.p9.js"],
    [], [], fun p => p⟩⟩

/-- C6 witness: in the ten-file walk the failing file is omitted (the walk
equals the walk without it) and the resulting plugin catalog has exactly
nine entries. -/
theorem indexPlugins_error_isolation_witness :
    indexPluginsOn walkEnv
        (["/repo/js/foundation.p1.js", "/repo/js/foundation.p2.js",
          "/repo/js/foundation.p3.js", "/repo/js/foundation.p4.js"] ++
         "/repo/js/foundation.bad.js" ::
          ["/repo/js/foundation.p5.js", "/repo/js/foundation.p6.js",
           "/repo/js/foundation.p7.js", "/repo/js/foundation.p8.js",
           "/repo/js/foundation.p9.js"]) =
      indexPluginsOn walkEnv
        (["/repo/js/foundation.p1.js", "/repo/js/foundation.p2.js",
          "/repo/js/foundation.p3.js", "/repo/js/foundation.p4.js"] ++
         ["/repo/js/foundation.p5.js", "/repo/js/foundation.p6.js",
          "/repo/js/foundation.p7.js", "/repo/js/foundation.p8.js",
          "/repo/js/foundation.p9.js"]) ∧
    (indexPlugins walkEnv).length = 9 :=
  ⟨indexPlugins_error_isolation walkEnv _ _ "/repo/js/foundation.bad.js"
      ⟨"Failed to parse JavaScript plugin: Unexpected token", rfl⟩,
   by decide⟩

/-! ### C3 — explicit-target short circuit of the refactoring analyzer -/

/-- The short-circuit branch of `findSimilarComponents` in isolation. -/
theorem findSimilarComponents_target_found {α : Type}
    (entryName entrySlug : α → String) (features : List (String × Bool))
    (components : List α) (t : String) (p : α) (ht : t ≠ "")
    (hfind : components.find? (fun c => entrySlug c = t) = some p) :
    findSimilarComponents entryName entrySlug features components (some t) =
      [⟨entryName p, entrySlug p, 100, "User specified target: " ++ entryName p⟩] := by
  simp only [findSimilarComponents]
  rw [if_pos ht, hfind]

/-- C3: when an explicit target slug (non-empty, as the source tests the
parameter for truthiness) is supplied and found in the catalog relevant to
the declared source kind, the analysis returns exactly one suggestion with
similarity 100 whose reasoning names the user-specified target, regardless
of the features detectable in the source. -/
theorem refactoring_explicit_target (env : Env) (cache : CacheMap)
    (code t : String) (ht : t ≠ "") :
    (∀ (prog : List JsStmt) (p : FoundationPlugin),
      env.babel code = .ok prog →
      (buildIndex env cache).index.plugins.find? (fun c => c.slug = t) = some p →
      (analyzeForRefactoring env cache code "custom-plugin" (some t)).1.map
          (fun r => r.suggestedFoundationComponents) =
        .ok [⟨p.name, p.slug, 100, "User specified target: " ++ p.name⟩]) ∧
    (∀ (ast : List ScssNode) (p : FoundationComponent),
      env.scss code = .ok ast →
      (buildIndex env cache).index.components.find? (fun c => c.slug = t) = some p →
      (analyzeForRefactoring env cache code "custom-component" (some t)).1.map
          (fun r => r.suggestedFoundationComponents) =
        .ok [⟨p.name, p.slug, 100, "User specified target: " ++ p.name⟩]) := by
  constructor
  · intro prog p hb hfind
    rw [show analyzeForRefactoring env cache code "custom-plugin" (some t) =
        analyzePluginForRefactoring env cache code (some t) from if_pos rfl]
    simp only [analyzePluginForRefactoring, parsePluginText, hb]
    rw [findSimilarComponents_target_found (fun c => c.name) (fun c => c.slug)
      (pluginFeaturePairs code) (buildIndex env cache).index.plugins t p ht hfind]
    rfl
  · intro ast p hs hfind
    rw [show analyzeForRefactoring env cache code "custom-component" (some t) =
        analyzeComponentForRefactoring env cache code (some t) from
      if_neg (by decide)]
    simp only [analyzeComponentForRefactoring, parseComponentText, hs]
    rw [findSimilarComponents_target_found (fun c => c.name) (fun c => c.slug)
      (componentFeaturePairs code) (buildIndex env cache).index.components t p ht hfind]
    rfl

def tabsPlugin : FoundationPlugin :=
  { name := "Tabs", slug := "tabs", type := "plugin",
    path := "js/foundation.tabs.js", description := "Tabs plugin",
    className := "Tabs", selector := "[data-tabs]",
    supportsNesting := false, deprecatedInVersion := none,
    docs := "https://get.foundation/sites/docs/tabs.html" }

/-- A one-plugin, one-component catalog snapshot preloaded in the cache,
with stub grammars, used to instantiate the refactoring theorems. -/
def catalogIdx : FoundationIndex :=
  { plugins := [tabsPlugin]
    components := [{ name := "Card", slug := "card", type := "component",
                     scssPath := "scss/components/_card.scss",
                     description := "Card component", mixins := [],
                     cssClasses := [],
                     docs := "https://get.foundation/sites/docs/card.html" }]
    utilities := []
    grids := indexGrids }

def stubEnv : Env :=
  ⟨fun _ => .ok [], fun _ => .ok [],
   ⟨fun _ => false, fun _ => .error "io", [], [], [], fun p => p⟩⟩

def loadedCache : CacheMap := [(pluginIndexKey, catalogIdx)]

/-- C3 witness: with the preloaded catalog, requesting target "tabs" for a
plugin-kind source full of unrelated feature keywords yields exactly one
suggestion, similarity 100, reasoning naming Tabs. -/
theorem refactoring_explicit_target_witness :
    (analyzeForRefactoring stubEnv loadedCache
        "dropdown menu modal carousel" "custom-plugin" (some "tabs")).1.map
      (fun r => r.suggestedFoundationComponents) =
    .ok [⟨"Tabs", "tabs", 100, "User specified target: Tabs"⟩] :=
  (refactoring_explicit_target stubEnv loadedCache
      "dropdown menu modal carousel" "tabs" (by decide)).1
    [] tabsPlugin rfl (by decide)

/-! ### C4 — feature fan-out of the refactoring analyzer -/

theorem featureSuggestion_similarity (f : String) (s : Suggestion)
    (h : featureSuggestion f = some s) : s.similarity = 85 := by
  unfold featureSuggestion at h
  cases hf : featureToComponent.find? (fun q => q.1 = f) with
  | none => rw [hf] at h; simp at h
  | some q =>
    rw [hf] at h
    simp at h
    rw [← h]

/-- C4: with no explicit target — or an explicit target that is empty or
not found in the component catalog — each feature detected by the
case-insensitive keyword battery maps through the static
feature→component table to one suggestion with flat similarity 85, and the
result keeps at most the first three suggestions in feature-detection
order (no other sorting or de-duplication). -/
theorem refactoring_feature_fanout (env : Env) (cache : CacheMap)
    (code : String) (target : Option String)
    (hmiss : target = none ∨ ∃ t, target = some t ∧ (t = "" ∨
      (buildIndex env cache).index.components.find? (fun c => c.slug = t) = none))
    (ast : List ScssNode) (hs : env.scss code = .ok ast) :
    (analyzeForRefactoring env cache code "custom-component" target).1.map
        (fun r => r.suggestedFoundationComponents) =
      .ok (((((componentFeaturePairs code).filter (fun p => p.2)).map
        (fun p => p.1)).filterMap featureSuggestion).take 3) ∧
    (∀ s ∈ ((((componentFeaturePairs code).filter (fun p => p.2)).map
        (fun p => p.1)).filterMap featureSuggestion).take 3, s.similarity = 85) ∧
    (((((componentFeaturePairs code).filter (fun p => p.2)).map
        (fun p => p.1)).filterMap featureSuggestion).take 3).length ≤ 3 := by
  have hfan : findSimilarComponents (fun c => c.name) (fun c => c.slug)
      (componentFeaturePairs code) (buildIndex env cache).index.components target =
      ((((componentFeaturePairs code).filter (fun p => p.2)).map
        (fun p => p.1)).filterMap featureSuggestion).take 3 := by
    rcases hmiss with h | ⟨t, ht, hmiss⟩
    · rw [h]
      rfl
    · rw [ht]
      by_cases hte : t = ""
      · simp [findSimilarComponents, hte]
      · rcases hmiss with h0 | hnone
        · exact absurd h0 hte
        · simp [findSimilarComponents, hte, hnone]
  refine ⟨?_, ?_, ?_⟩
  · rw [show analyzeForRefactoring env cache code "custom-component" target =
        analyzeComponentForRefactoring env cache code target from
      if_neg (by decide)]
    simp only [analyzeComponentForRefactoring, parseComponentText, hs]
    rw [hfan]
    rfl
  · intro s hsm
    have hm2 := List.mem_of_mem_take hsm
    obtain ⟨f, _, hf⟩ := List.mem_filterMap.mp hm2
    exact featureSuggestion_similarity f s hf
  · rw [List.length_take]
    exact min_le_left _ _

/-- C4 witness: a component-kind source containing both "card" and "badge"
keywords (and no other feature keyword) with no explicit target yields two
suggestions, each with similarity 85, in feature-check order. -/
theorem refactoring_feature_fanout_witness :
    (analyzeForRefactoring stubEnv loadedCache ".card .badge"
        "custom-component" none).1.map
      (fun r => r.suggestedFoundationComponents) =
    .ok [⟨"Card", "card", 85, "Detected card functionality"⟩,
         ⟨"Badge", "badge", 85, "Detected badge functionality"⟩] := by
  have h := (refactoring_feature_fanout stubEnv loadedCache ".card .badge" none
    (Or.inl rfl) [] rfl).1
  rw [h]
  exact congrArg Except.ok (by decide)
